import Mathlib

/-!
Shallow embedding of the ElectroLens python package (electrolens/converter.py,
electrolens/plot.py, electrolens/view.py) and proofs about its
configuration-building pipeline.

Python dictionaries are modelled as insertion-ordered association lists of
string keys (`JObj`); JSON-compatible values as the inductive `JValue α`,
where `α` abstracts the numeric scalars (Python floats/ints).  External
collaborator functions (ASE `Cell.lengths`, sklearn `normalize`,
`os.path.abspath`, file-system access) are parameters of the model, bundled
in `ExtEnv`; for the geometry claims they are instantiated over `ℝ` with
their documented semantics.
-/

namespace ElectroLens

/-- JSON-compatible value tree; `α` is the numeric scalar type standing for
Python's floats/ints. -/
inductive JValue (α : Type) where
  | num : α → JValue α
  | str : String → JValue α
  | arr : List (JValue α) → JValue α
  | obj : List (String × JValue α) → JValue α

/-- A Python dict with string keys: an insertion-ordered association list. -/
abbrev JObj (α : Type) := List (String × JValue α)

/-- Python `d[k] = v`: replace the value in place if the key exists (first
occurrence), otherwise append the binding at the end. -/
def dset {α : Type} : JObj α → String → JValue α → JObj α
  | [], k, v => [(k, v)]
  | (k', v') :: rest, k, v =>
      if k' = k then (k', v) :: rest else (k', v') :: dset rest k v

/-- Python `d[k]` lookup (first occurrence). -/
def dget {α : Type} : JObj α → String → Option (JValue α)
  | [], _ => none
  | (k', v') :: rest, k => if k' = k then some v' else dget rest k

/-- Python `k in d`. -/
def dhas {α : Type} (d : JObj α) (k : String) : Bool :=
  (dget d k).isSome

/-! ## Property schemas (electrolens/plot.py lines 11-121) -/

/-- The validated state of `MolecularDataProperties` (plot.py lines 65-83):
just the declared column list. -/
structure MolecularDataProperties where
  columns : List String

/-- Constructor of `MolecularDataProperties` (plot.py lines 71-83).  A `none`
column list is replaced by the default `list({'x','y','z'})` (the python set
iteration order is unspecified; the model fixes one); an explicit list must
contain `'x'`, `'y'` and `'z'` or a `ValueError` is raised. -/
def mkMolecularDataProperties (columns : Option (List String)) :
    Except String MolecularDataProperties :=
  match columns with
  | none => .ok ⟨["x", "y", "z"]⟩
  | some cols =>
      if "x" ∈ cols ∧ "y" ∈ cols ∧ "z" ∈ cols then .ok ⟨cols⟩
      else .error "columns list should contain 'x','y','z' columns at least"

/-- The validated state of `SpatiallyResolvedDataProperties` (plot.py lines
11-43); `α` is the scalar type of the density clamp bounds. -/
structure SpatiallyResolvedDataProperties (α : Type) where
  columns : List String
  density_property : String
  density_lower_limit : α
  density_upper_limit : α

/-- Constructor of `SpatiallyResolvedDataProperties` (plot.py lines 17-43).
A `none` column list is replaced by `list({'x','y','z'})` with the density
property appended; an explicit list must contain the density property
(checked first) and `'x'`, `'y'`, `'z'`; otherwise a `ValueError`
is raised and no object is produced. -/
def mkSpatiallyResolvedDataProperties {α : Type} (columns : Option (List String))
    (density_property : String) (density_lower_limit density_upper_limit : α) :
    Except String (SpatiallyResolvedDataProperties α) :=
  match columns with
  | none =>
      .ok ⟨["x", "y", "z"] ++ [density_property], density_property,
           density_lower_limit, density_upper_limit⟩
  | some cols =>
      if density_property ∈ cols then
        if "x" ∈ cols ∧ "y" ∈ cols ∧ "z" ∈ cols then
          .ok ⟨cols, density_property, density_lower_limit, density_upper_limit⟩
        else
          .error "columns list should contain 'x', 'y', 'z' and the density property at least"
      else .error "density_property should be available in columns list"

/-- `FramedDataProperties` (plot.py lines 101-111). -/
structure FramedDataProperties where
  frame_column : String

/-- The `Union[SpatiallyResolvedDataProperties, MolecularDataProperties]`
argument threaded through the converters; both variants expose `columns`. -/
inductive DataProps (α : Type) where
  | molecular : MolecularDataProperties → DataProps α
  | spatiallyResolved : SpatiallyResolvedDataProperties α → DataProps α

/-- Duck-typed `properties.columns` access used by the converters. -/
def DataProps.columns {α : Type} : DataProps α → List String
  | .molecular p => p.columns
  | .spatiallyResolved p => p.columns

/-! ## Input data model (ASE collaborator objects) -/

/-- A 3x3 lattice/cell matrix of row vectors. -/
abbrev Cell3 (α : Type) := Fin 3 → Fin 3 → α

/-- One ASE atom: a position and a species symbol. -/
structure AtomRec (α : Type) where
  px : α
  py : α
  pz : α
  symbol : String

/-- An ASE `Atoms` snapshot: an ordered atom list plus its cell. -/
structure AtomsSnap (α : Type) where
  atoms : List (AtomRec α)
  cell : Cell3 α

/-- External collaborator functions the converter layer calls, abstracted as
parameters of the model: ASE `Cell.lengths()` (row lengths), sklearn
`normalize(..., axis=1)` (row-wise l2 normalization), `os.path.abspath`,
and whether `open(path)` succeeds for reading. -/
structure ExtEnv (α : Type) where
  lengths : Cell3 α → Fin 3 → α
  l2normalize : Cell3 α → Cell3 α
  abspath : String → String
  openOk : String → Bool

/-- Python `str.replace('\\', '/')` applied by `_set_data_filename_`. -/
def slashPath (s : String) : String :=
  String.map (fun c => if c = '\\' then '/' else c) s

/-- The `systemDimension` block built by `_init_atoms_` (converter.py
lines 45-49). -/
def dimObj {α : Type} (len : Fin 3 → α) : JValue α :=
  .obj [("x", .num (len 0)), ("y", .num (len 1)), ("z", .num (len 2))]

/-- The `systemLatticeVectors` block built by `_init_atoms_` (converter.py
lines 55-59). -/
def latObj {α : Type} (u : Cell3 α) : JValue α :=
  .obj [("u11", .num (u 0 0)), ("u12", .num (u 0 1)), ("u13", .num (u 0 2)),
        ("u21", .num (u 1 0)), ("u22", .num (u 1 1)), ("u23", .num (u 1 2)),
        ("u31", .num (u 2 0)), ("u32", .num (u 2 1)), ("u33", .num (u 2 2))]

/-- `_init_atoms_` (converter.py lines 32-59): adds `systemDimension` (cell
row lengths) and `systemLatticeVectors` (row-normalized cell) to the output,
each skipped -- with only a warning -- when the key is already present. -/
def initAtoms {α : Type} (env : ExtEnv α) (c : Cell3 α) (output : JObj α) : JObj α :=
  let output :=
    if dhas output "systemDimension" then output
    else dset output "systemDimension" (dimObj (env.lengths c))
  if dhas output "systemLatticeVectors" then output
  else dset output "systemLatticeVectors" (latObj (env.l2normalize c))

/-! ## Converters (electrolens/converter.py) -/

/-- One delimited cell written through `csv.writer`: the empty-string filler,
a numeric value, or a text value. -/
inductive CsvCell (α : Type) where
  | empty : CsvCell α
  | num : α → CsvCell α
  | str : String → CsvCell α

/-- The observable effect of one `convert` call: the (possibly partially)
mutated output dictionary, the delimited rows written to the data output
file, and the raised exception if any (`none` on normal return). -/
structure ConvOutcome (α : Type) where
  output : JObj α
  fileRows : List (List (CsvCell α))
  error : Option String

/-- Python `list.index`: the first index of the element, or a `ValueError`
(modelled as `none`) when absent. -/
def pyIndex (l : List String) (s : String) : Option Nat :=
  match l with
  | [] => none
  | a :: t => if a = s then some 0 else (pyIndex t s).map (· + 1)

/-- The working column list of the molecular converters (converter.py lines
204-206 and 279-281): a copy of the declared columns with `'atom'` appended
when absent. -/
def withAtomColumn (cols : List String) : List String :=
  cols ++ (if "atom" ∈ cols then [] else ["atom"])

/-- A CSV row of the snapshot/trajectory file branch: `[''] * len(columns)`
with the coordinate, species (and frame) positions overwritten in statement
order. -/
def blankRow {α : Type} (n : Nat) : List (CsvCell α) :=
  List.replicate n CsvCell.empty

/-- `ASEAtomsToMolecularDataConverter.convert`/`__convert__` (converter.py
lines 172-235).  `fileH` is the name of `data_output_file` when one is
supplied.  Framed properties are rejected up front; then `_init_atoms_`
runs, `moleculeData` is set, the column index lookups run (a `ValueError`
leaves `moleculeData` as the already-inserted empty dict), and the rows are
either streamed to the file after a header row (with `dataFilename` recorded
in the fragment) or materialized inline under `data`. -/
def aseAtomsConvert {α : Type} (env : ExtEnv α) (data : AtomsSnap α)
    (props : DataProps α) (framed : Option FramedDataProperties)
    (fileH : Option String) (output0 : JObj α) : ConvOutcome α :=
  if framed.isSome then
    ⟨output0, [], some "Atoms data does not support frames"⟩
  else
    let out := initAtoms env data.cell output0
    let columns := withAtomColumn props.columns
    match pyIndex columns "x", pyIndex columns "y",
          pyIndex columns "z", pyIndex columns "atom" with
    | some xi, some yi, some zi, some ai =>
        match fileH with
        | some f =>
            let frag : JObj α := [("dataFilename", .str (slashPath (env.abspath f)))]
            let header := columns.map CsvCell.str
            let rows := data.atoms.map (fun a =>
              (((((blankRow columns.length).set xi (.num a.px)).set yi
                  (.num a.py)).set zi (.num a.pz)).set ai (.str a.symbol)))
            ⟨dset out "moleculeData" (.obj frag), header :: rows, none⟩
        | none =>
            let others :=
              (columns.filter (fun c => c ∉ (["x", "y", "z", "atom"] : List String))).dedup
            let rows := data.atoms.map (fun a => JValue.obj
              ([("x", .num a.px), ("y", .num a.py), ("z", .num a.pz),
                ("atom", .str a.symbol)] ++ others.map (fun c => (c, JValue.str ""))))
            ⟨dset out "moleculeData" (.obj [("data", .arr rows)]), [], none⟩
    | _, _, _, _ =>
        ⟨dset out "moleculeData" (.obj []), [], some "ValueError: column not in list"⟩

/-- The inline per-atom mapping of the trajectory converter (converter.py
lines 310-318): `{x, y, z, atom}` with the frame index assigned under the
declared frame column name (a plain dict assignment, hence `dset`). -/
def trajInlineRow {α : Type} (framedCol : Option String) (i : α) (a : AtomRec α) :
    JValue α :=
  let base : JObj α := [("x", .num a.px), ("y", .num a.py), ("z", .num a.pz),
                        ("atom", .str a.symbol)]
  match framedCol with
  | some col => .obj (dset base col (.num i))
  | none => .obj base

/-- The per-atom CSV row of the trajectory file branch (converter.py lines
297-305). -/
def trajFileRow {α : Type} (n xi yi zi ai : Nat) (fi : Option Nat) (i : α)
    (a : AtomRec α) : List (CsvCell α) :=
  let row := (((((blankRow n).set xi (.num a.px)).set yi (.num a.py)).set zi
      (.num a.pz)).set ai (.str a.symbol))
  match fi with
  | some k => row.set k (.num i)
  | none => row

/-- `ASETrajectoryToMolecularDataConverter.convert`/`__convert__`
(converter.py lines 250-319).  Geometry comes from `self.data[0]` (an
`IndexError` on an empty trajectory); the species index is looked up in the
ORIGINAL `properties.columns` (line 286), before either branch runs, so it
raises even on the inline path when `'atom'` was not declared. -/
def aseTrajectoryConvert {α : Type} [NatCast α] (env : ExtEnv α)
    (data : List (AtomsSnap α)) (props : DataProps α)
    (framed : Option FramedDataProperties) (fileH : Option String)
    (output0 : JObj α) : ConvOutcome α :=
  match data with
  | [] => ⟨output0, [], some "IndexError: empty trajectory"⟩
  | frame0 :: _ =>
    let out := initAtoms env frame0.cell output0
    let columns := withAtomColumn props.columns
    let fIdx : Option (Option Nat) :=
      match framed with
      | some fp => (pyIndex columns fp.frame_column).map some
      | none => some none
    match pyIndex columns "x", pyIndex columns "y", pyIndex columns "z",
          pyIndex props.columns "atom", fIdx with
    | some xi, some yi, some zi, some ai, some fi =>
        match fileH with
        | some f =>
            let frag : JObj α := [("dataFilename", .str (slashPath (env.abspath f)))]
            let header := columns.map CsvCell.str
            let rows := data.enum.flatMap (fun p =>
              p.2.atoms.map (trajFileRow columns.length xi yi zi ai fi ((p.1 : Nat) : α)))
            ⟨dset out "moleculeData" (.obj frag), header :: rows, none⟩
        | none =>
            let rows := data.enum.flatMap (fun p =>
              p.2.atoms.map (trajInlineRow (framed.map (·.frame_column)) ((p.1 : Nat) : α)))
            ⟨dset out "moleculeData" (.obj [("data", .arr rows)]), [], none⟩
    | _, _, _, _, _ =>
        ⟨dset out "moleculeData" (.obj []), [], some "ValueError: column not in list"⟩

/-- The `ExtraProperties` namedtuple built in view.py (lines 53-54 and
127-128): species labels and cell for numpy-array inputs. -/
structure ExtraProperties (α : Type) where
  np_atoms : Option (List String)
  cell : Option (Cell3 α)

/-- Runs a fallible builder over a list, keeping the successful items before
the first failure (the python loop appends per iteration and an exception
aborts it, leaving the earlier items in place). -/
def mapStop {β γ : Type} (f : β → Except String γ) : List β → List γ × Option String
  | [] => ([], none)
  | b :: bs =>
      match f b with
      | .error e => ([], some e)
      | .ok c =>
          let r := mapStop f bs
          (c :: r.1, r.2)

/-- One CSV row of `ArrayToMolecularDataConverter` (converter.py lines
375-384): the value of every declared column looked up positionally (first
index of the column name), then the species label appended last.  A lookup
beyond the array row's width is an `IndexError`. -/
def arrayFileRow {α : Type} (columns : List String) (names : List String)
    (p : Nat × List α) : Except String (List (CsvCell α)) :=
  match (columns.mapM (fun c => (pyIndex columns c).bind p.2.get? )) with
  | none => .error "IndexError: array row too short"
  | some vals =>
      match names.get? p.1 with
      | none => .error "IndexError: atom names list too short"
      | some name => .ok (vals.map CsvCell.num ++ [.str name])

/-- One inline mapping of `ArrayToMolecularDataConverter` (converter.py lines
388-397): dict assignments per declared column, then `atom_data["atom"]`
assigned the species label (overwriting any declared `atom` column). -/
def arrayInlineRow {α : Type} (columns : List String) (names : List String)
    (p : Nat × List α) : Except String (JValue α) :=
  match (columns.mapM (fun c => ((pyIndex columns c).bind p.2.get?).map (c, ·))) with
  | none => .error "IndexError: array row too short"
  | some pairs =>
      match names.get? p.1 with
      | none => .error "IndexError: atom names list too short"
      | some name =>
          .ok (.obj (dset (pairs.foldl (fun d q => dset d q.1 (.num q.2)) []) "atom" (.str name)))

/-- `ArrayToMolecularDataConverter.convert`/`__convert__` (converter.py lines
335-397): auxiliary species labels and cell are required; the file branch
writes a header of the DECLARED columns (no species column appended) and one
row per array row; the inline branch materializes mappings under `data`. -/
def arrayToMolecularConvert {α : Type} (env : ExtEnv α) (data : List (List α))
    (props : DataProps α) (extra : ExtraProperties α) (fileH : Option String)
    (output0 : JObj α) : ConvOutcome α :=
  match extra.np_atoms with
  | none => ⟨output0, [], some "missing atom names for numpy array input data"⟩
  | some names =>
    match extra.cell with
    | none => ⟨output0, [], some "missing cell configuration for numpy array input data"⟩
    | some c =>
      let out := initAtoms env c output0
      match fileH with
      | some f =>
          let frag : JObj α := [("dataFilename", .str (slashPath (env.abspath f)))]
          let header := props.columns.map CsvCell.str
          let r := mapStop (arrayFileRow props.columns names) data.enum
          ⟨dset out "moleculeData" (.obj frag), header :: r.1, r.2⟩
      | none =>
          let r := mapStop (arrayInlineRow props.columns names) data.enum
          ⟨dset out "moleculeData" (.obj [("data", .arr r.1)]), [], r.2⟩

/-- `ArrayToSpatiallyResolvedDataConverter.convert`/`__convert__`
(converter.py lines 412-435): the isinstance check passes for an ndarray and
the `__convert__` body is `pass`, so the call returns normally having
written NOTHING -- no output keys, no rows, no exception. -/
def arrayToSpatiallyResolvedConvert {α : Type} (_env : ExtEnv α)
    (_data : List (List α)) (_props : DataProps α) (_fileH : Option String)
    (output0 : JObj α) : ConvOutcome α :=
  ⟨output0, [], none⟩

/-- The two target formats a view requests (`DataFormat.MOLECULAR_DATA` and
`DataFormat.SPATIALLY_RESOLVED_DATA`); the other enum members are source
formats and never requested as targets. -/
inductive TargetFormat where
  | molecular : TargetFormat
  | spatiallyResolved : TargetFormat

/-- `FileToAnyDataConverter.convert`/`__convert__` (converter.py lines
452-486): pick the node name from the target format, set it to an empty
dict, then open the input path (an `IOError` propagates with the empty node
left in place) and record its absolute path under `dataFilename`. -/
def fileToAnyConvert {α : Type} (env : ExtEnv α) (path : String)
    (target : TargetFormat) (output0 : JObj α) : ConvOutcome α :=
  let node := match target with
    | .molecular => "moleculeData"
    | .spatiallyResolved => "spatiallyResolvedData"
  let out := dset output0 node (.obj [])
  if env.openOk path then
    ⟨dset out node (.obj [("dataFilename", .str (slashPath (env.abspath path)))]), [], none⟩
  else
    ⟨out, [], some "IOError"⟩

/-- The four runtime input shapes distinguished by
`Converter.__get_data_format__` (converter.py lines 88-108). -/
inductive InputData (α : Type) where
  | file : String → InputData α
  | atoms : AtomsSnap α → InputData α
  | trajectory : List (AtomsSnap α) → InputData α
  | array : List (List α) → InputData α

/-- `Converter.create_converter` followed by `convert` (converter.py lines
110-137): dispatch on (input shape, target format); the unmapped
combinations raise `TypeError("Unsupported data format conversion")`. -/
def converterConvert {α : Type} [NatCast α] (env : ExtEnv α) (data : InputData α)
    (target : TargetFormat) (props : DataProps α)
    (framed : Option FramedDataProperties) (extra : ExtraProperties α)
    (fileH : Option String) (output0 : JObj α) : ConvOutcome α :=
  match data, target with
  | .trajectory t, .molecular => aseTrajectoryConvert env t props framed fileH output0
  | .atoms a, .molecular => aseAtomsConvert env a props framed fileH output0
  | .array arr, .molecular => arrayToMolecularConvert env arr props extra fileH output0
  | .array arr, .spatiallyResolved => arrayToSpatiallyResolvedConvert env arr props fileH output0
  | .file f, target => fileToAnyConvert env f target output0
  | .atoms _, .spatiallyResolved =>
      ⟨output0, [], some "TypeError: Unsupported data format conversion"⟩
  | .trajectory _, .spatiallyResolved =>
      ⟨output0, [], some "TypeError: Unsupported data format conversion"⟩

/-! ## Views (electrolens/view.py) -/

/-- `SpatiallyResolvedData` (view.py lines 14-35): the input data plus
optional grid metadata and the numpy-array side data. -/
structure SpatiallyResolvedDataV (α : Type) where
  data : InputData α
  grid_points : Option (α × α × α)
  grid_spacing : Option (α × α × α)
  np_atoms : Option (List String)
  ase_cell : Option (Cell3 α)

/-- `MolecularData` (view.py lines 92-109). -/
structure MolecularDataV (α : Type) where
  data : InputData α
  np_atoms : Option (List String)
  ase_cell : Option (Cell3 α)

/-- The `numGridPoints` entry of a spatially-resolved fragment (view.py
lines 76-81), present only when grid points were provided. -/
def gpEntries {α : Type} (srd : SpatiallyResolvedDataV α) : JObj α :=
  match srd.grid_points with
  | some (a, b, c) =>
      [("numGridPoints", JValue.obj [("x", .num a), ("y", .num b), ("z", .num c)])]
  | none => []

/-- The `gridSpacing` entry of a spatially-resolved fragment (view.py lines
84-89), present only when grid spacing was provided. -/
def gsEntries {α : Type} (srd : SpatiallyResolvedDataV α) : JObj α :=
  match srd.grid_spacing with
  | some (a, b, c) =>
      [("gridSpacing", JValue.obj [("x", .num a), ("y", .num b), ("z", .num c)])]
  | none => []

/-- `SpatiallyResolvedData.add_configuration` (view.py lines 37-89): run the
converter for the spatially-resolved target, then REPLACE
`configuration['spatiallyResolvedData']` with a fresh empty dict (line 74)
and add the grid metadata keys to it. -/
def srdAddConfiguration {α : Type} [NatCast α] (env : ExtEnv α)
    (srd : SpatiallyResolvedDataV α) (configuration : JObj α)
    (props : DataProps α) (framed : Option FramedDataProperties)
    (dataOutputFile : Option String) : ConvOutcome α :=
  let extra : ExtraProperties α := ⟨srd.np_atoms, srd.ase_cell⟩
  let r := converterConvert env srd.data .spatiallyResolved props framed extra
      dataOutputFile configuration
  match r.error with
  | some _ => r
  | none =>
      ⟨dset r.output "spatiallyResolvedData" (.obj (gpEntries srd ++ gsEntries srd)),
        r.fileRows, none⟩

/-- `MolecularData.add_configuration` (view.py lines 111-145): run the
converter for the molecular target. -/
def mdAddConfiguration {α : Type} [NatCast α] (env : ExtEnv α)
    (md : MolecularDataV α) (configuration : JObj α) (props : DataProps α)
    (framed : Option FramedDataProperties) (dataOutputFile : Option String) :
    ConvOutcome α :=
  converterConvert env md.data .molecular props framed ⟨md.np_atoms, md.ase_cell⟩
    dataOutputFile configuration

/-- The stored state of a `ThreeDView` (view.py lines 177-241), after the
constructor turned the optional dimension / lattice-vector lists into their
field values and `add_data` stored the data sources and output files. -/
structure ThreeDViewV (α : Type) where
  system_name : String
  system_dimensions : Option (α × α × α)
  system_lattice_vectors : Option (Cell3 α)
  spatially_resolved_data : Option (SpatiallyResolvedDataV α)
  molecular_data : Option (MolecularDataV α)
  spatially_resolved_output_file : Option String
  molecular_output_file : Option String

/-- `TwoDHeatmap` (view.py lines 289-307). -/
structure TwoDHeatmapV where
  plot_x : String
  plot_y : String
  plot_x_transform : String
  plot_y_transform : String

/-- The header of a `ThreeDView` configuration (view.py lines 256-265):
view type, molecule name, and the user-provided geometry when present. -/
def viewHeaderConfig {α : Type} (v : ThreeDViewV α) : JObj α :=
  let config : JObj α := [("viewType", .str "3DView"), ("moleculeName", .str v.system_name)]
  let config :=
    match v.system_dimensions with
    | some (x, y, z) =>
        dset config "systemDimension" (.obj [("x", .num x), ("y", .num y), ("z", .num z)])
    | none => config
  match v.system_lattice_vectors with
  | some u => dset config "systemLatticeVectors" (latObj u)
  | none => config

/-- The default-geometry step of `ThreeDView.get_configuration` (view.py
lines 276-284): a 10x10x10 box and the identity lattice vectors for
whatever geometry key is still missing. -/
def applyDefaultGeometry {α : Type} [NatCast α] (out : JObj α) : JObj α :=
  let c2 :=
    if dhas out "systemDimension" then out
    else dset out "systemDimension"
      (.obj [("x", .num ((10 : Nat) : α)), ("y", .num ((10 : Nat) : α)),
             ("z", .num ((10 : Nat) : α))])
  if dhas c2 "systemLatticeVectors" then c2
  else dset c2 "systemLatticeVectors"
    (latObj (fun i j => if i.val = j.val then ((1 : Nat) : α) else ((0 : Nat) : α)))

/-- `ThreeDView.get_configuration` (view.py lines 243-286): header, optional
user-provided geometry, the two data sections (each only when the plot
declared the matching properties; accessing a missing data object raises an
`AttributeError`), then default geometry for whatever is still missing. -/
def threeDViewGetConfiguration {α : Type} [NatCast α] (env : ExtEnv α)
    (v : ThreeDViewV α) (srp : Option (SpatiallyResolvedDataProperties α))
    (mp : Option MolecularDataProperties) (fp : Option FramedDataProperties) :
    ConvOutcome α :=
  let config := viewHeaderConfig v
  let step1 : ConvOutcome α :=
    match srp with
    | some p =>
        match v.spatially_resolved_data with
        | some srd =>
            srdAddConfiguration env srd config (.spatiallyResolved p) fp
              v.spatially_resolved_output_file
        | none => ⟨config, [], some "AttributeError: spatially resolved data was not added"⟩
    | none => ⟨config, [], none⟩
  match step1.error with
  | some _ => step1
  | none =>
    let step2 : ConvOutcome α :=
      match mp with
      | some p =>
          match v.molecular_data with
          | some md =>
              let r := mdAddConfiguration env md step1.output (.molecular p) fp
                  v.molecular_output_file
              ⟨r.output, step1.fileRows ++ r.fileRows, r.error⟩
          | none => ⟨step1.output, step1.fileRows,
              some "AttributeError: molecular data was not added"⟩
      | none => step1
    match step2.error with
    | some _ => step2
    | none => ⟨applyDefaultGeometry step2.output, step2.fileRows, none⟩

/-- A view added to a plot: a `ThreeDView` or a `TwoDHeatmap`. -/
inductive ViewV (α : Type) where
  | threeD : ThreeDViewV α → ViewV α
  | twoD : TwoDHeatmapV → ViewV α

/-- `View.get_configuration` dispatch; `TwoDHeatmap.get_configuration`
(view.py lines 308-333) builds its nested literal and cannot fail. -/
def viewGetConfiguration {α : Type} [NatCast α] (env : ExtEnv α) (v : ViewV α)
    (srp : Option (SpatiallyResolvedDataProperties α))
    (mp : Option MolecularDataProperties) (fp : Option FramedDataProperties) :
    ConvOutcome α :=
  match v with
  | .threeD w => threeDViewGetConfiguration env w srp mp fp
  | .twoD w =>
      ⟨[("view", .obj [("viewType", .str "2DHeatmap"), ("plotX", .str w.plot_x),
          ("plotY", .str w.plot_y), ("plotXTransform", .str w.plot_x_transform),
          ("plotYTransform", .str w.plot_y_transform)]),
        ("plot_setup", .obj [])], [], none⟩

/-! ## Plot (electrolens/plot.py lines 124-259) -/

/-- `MolecularDataProperties.add_plot_setup` (plot.py lines 85-98): store the
derived property list (columns with `atom` appended when absent). -/
def molecularAddPlotSetup {α : Type} (p : MolecularDataProperties)
    (configuration : JObj α) : JObj α :=
  dset configuration "moleculePropertyList" (.arr ((withAtomColumn p.columns).map .str))

/-- `SpatiallyResolvedDataProperties.add_plot_setup` (plot.py lines 45-62). -/
def spatialAddPlotSetup {α : Type} (p : SpatiallyResolvedDataProperties α)
    (configuration : JObj α) : JObj α :=
  let c1 := dset configuration "spatiallyResolvedPropertyList"
      (.arr ((withAtomColumn p.columns).map .str))
  let c2 := dset c1 "pointcloudDensity" (.str p.density_property)
  let c3 := dset c2 "densityCutoffLow" (.num p.density_lower_limit)
  dset c3 "densityCutoffUp" (.num p.density_upper_limit)

/-- `FramedDataProperties.add_plot_setup` (plot.py lines 113-121). -/
def framedAddPlotSetup {α : Type} (p : FramedDataProperties)
    (configuration : JObj α) : JObj α :=
  dset configuration "frameProperty" (.str p.frame_column)

/-- The stored state of a `Plot` (plot.py lines 128-173) after construction:
the accumulated views, the three optional property schemas, and the optional
input configuration file path. -/
structure PlotV (α : Type) where
  views : List (ViewV α)
  spatially_resolved_properties : Option (SpatiallyResolvedDataProperties α)
  molecular_properties : Option MolecularDataProperties
  framed_properties : Option FramedDataProperties
  input_configuration_file : Option String

/-- `Plot.add_view` (plot.py lines 175-186): forbidden (a `ValueError`, with
the plot state untouched) when an input configuration file was provided,
otherwise the view is appended.  The result pairs the post-call plot state
with the raised error, if any. -/
def plotAddView {α : Type} (p : PlotV α) (v : ViewV α) : PlotV α × Option String :=
  if p.input_configuration_file.isSome then
    (p, some "View cannot be added when configuration file has been provided")
  else
    ({ p with views := p.views ++ [v] }, none)

/-- `Plot.__get_plot_setup__` (plot.py lines 244-259): apply the three
`add_plot_setup` hooks in order on a fresh dict. -/
def plotGetPlotSetup {α : Type} (p : PlotV α) : JObj α :=
  let c1 := match p.spatially_resolved_properties with
    | some sp => spatialAddPlotSetup sp ([] : JObj α)
    | none => []
  let c2 := match p.molecular_properties with
    | some mp => molecularAddPlotSetup mp c1
    | none => c1
  match p.framed_properties with
  | some fp => framedAddPlotSetup fp c2
  | none => c2

/-- The `views` list of the configuration (plot.py lines 235-240): each
view's configuration in insertion order; the first exception propagates. -/
def plotViewConfigs {α : Type} [NatCast α] (env : ExtEnv α)
    (srp : Option (SpatiallyResolvedDataProperties α))
    (mp : Option MolecularDataProperties) (fp : Option FramedDataProperties) :
    List (ViewV α) → Except String (List (JValue α))
  | [] => .ok []
  | v :: vs =>
      match viewGetConfiguration env v srp mp fp with
      | ⟨out, _, none⟩ => (plotViewConfigs env srp mp fp vs).map (JValue.obj out :: ·)
      | ⟨_, _, some e⟩ => .error e

/-- `Plot.__create_configuration__` (plot.py lines 217-242).  In file-replay
mode the input file is read (`fs`) and parsed verbatim by `json.load`
(`jload`); otherwise an empty view list is rejected, and the configuration
is the dict `{'views': [...], 'plotSetup': {...}}`. -/
def plotCreateConfiguration {α : Type} [NatCast α] (env : ExtEnv α)
    (fs : String → Option String) (jload : String → Option (JValue α))
    (p : PlotV α) : Except String (JValue α) :=
  match p.input_configuration_file with
  | some path =>
      match fs path with
      | none => .error "IOError"
      | some contents =>
          match jload contents with
          | none => .error "json.JSONDecodeError"
          | some doc => .ok doc
  | none =>
      if p.views.isEmpty then .error "No view found"
      else
        (plotViewConfigs env p.spatially_resolved_properties p.molecular_properties
            p.framed_properties p.views).map (fun cfgs =>
          .obj [("views", .arr cfgs), ("plotSetup", .obj (plotGetPlotSetup p))])

/-- `Plot.save_configuration` (plot.py lines 205-215): the file contents
written to the output path are `json.dump` (`jdump`) of the created
configuration. -/
def plotSaveContent {α : Type} [NatCast α] (env : ExtEnv α)
    (fs : String → Option String) (jload : String → Option (JValue α))
    (jdump : JValue α → String) (p : PlotV α) : Except String String :=
  (plotCreateConfiguration env fs jload p).map jdump

/-! ## Real-number instantiation of the geometry collaborators

`_init_atoms_` calls two external functions: `atoms_cell.lengths()` (ASE:
the Euclidean lengths of the three cell row vectors) and
`sklearn.preprocessing.normalize(atoms_cell, axis=1)` (row-wise l2
normalization; a row whose norm is zero is returned unchanged, i.e. stays
the zero row).  Over `ℝ`, division by zero is zero, so plain division by
the row norm reproduces sklearn's zero-row convention exactly. -/

/-- Euclidean length of row `i` of a cell matrix. -/
noncomputable def rowNormR (c : Cell3 ℝ) (i : Fin 3) : ℝ :=
  Real.sqrt (c i 0 ^ 2 + c i 1 ^ 2 + c i 2 ^ 2)

/-- ASE `Cell.lengths()`: the lengths of the three lattice vectors. -/
noncomputable def aseCellLengths (c : Cell3 ℝ) : Fin 3 → ℝ :=
  rowNormR c

/-- sklearn `normalize(..., axis=1)` with the default l2 norm: each row is
divided by its Euclidean length; a zero row stays zero (in `ℝ`, `0 / 0 = 0`,
matching sklearn's replace-zero-norms-by-one convention). -/
noncomputable def sklearnNormalize (c : Cell3 ℝ) : Cell3 ℝ :=
  fun i j => c i j / rowNormR c i

/-- The external environment over `ℝ` used by the geometry claims; the path
functions are irrelevant there. -/
noncomputable def realEnv : ExtEnv ℝ :=
  ⟨aseCellLengths, sklearnNormalize, id, fun _ => true⟩

/-- The all-zero cell: the default `Atoms` object cell in ASE. -/
def zeroCell : Cell3 ℝ := fun _ _ => 0

/-- The identity cell matrix. -/
def idCell : Cell3 ℝ := fun i j => if i.val = j.val then 1 else 0

/-! ## JSON serialization model (python `json.dump` / `json.load`)

`Plot.save_configuration` writes `json.dump(configuration, fp, indent=4)` and
file-replay mode reads it back with `json.load`.  The model instantiates the
scalar type at `Int` and renders the compact form (`json.dump`'s `indent`
only interleaves whitespace, which `json.load` skips; the model elides
both).  Escaping covers the two characters python always escapes that can
appear unescaped inside a value, `"` and `\`; the loader maps any
backslash-escaped character to itself, which agrees with `json.load` on
everything this dumper emits. -/

/-- ASCII decimal digit test. -/
def isDigitCh (c : Char) : Bool :=
  '0' ≤ c && c ≤ '9'

/-- The character of a decimal digit. -/
def digitCh (d : Nat) : Char :=
  Char.ofNat (48 + d)

/-- Decimal digit characters of a natural number, most significant first. -/
def natChars (n : Nat) : List Char :=
  if n < 10 then [digitCh n]
  else natChars (n / 10) ++ [digitCh (n % 10)]
termination_by n
decreasing_by omega

/-- Decimal rendering of an integer. -/
def intChars (i : Int) : List Char :=
  if i < 0 then '-' :: natChars i.natAbs else natChars i.natAbs

/-- JSON escape of one string character. -/
def escChar (c : Char) : List Char :=
  if c = '"' || c = '\\' then ['\\', c] else [c]

/-- A JSON string literal: quote, escaped characters, quote. -/
def strChars (s : String) : List Char :=
  '"' :: (s.toList.flatMap escChar ++ ['"'])

/-- Comma-separated concatenation. -/
def joinComma : List (List Char) → List Char
  | [] => []
  | [x] => x
  | x :: xs => x ++ ',' :: joinComma xs

/-- Render a `JValue Int` to its JSON characters (compact form). -/
def jdumpChars : JValue Int → List Char
  | .num i => intChars i
  | .str s => strChars s
  | .arr l => '[' :: (joinComma (l.attach.map fun x => jdumpChars x.1) ++ [']'])
  | .obj l =>
      '{' :: (joinComma (l.attach.map fun x => strChars x.1.1 ++ ':' :: jdumpChars x.1.2) ++ ['}'])
termination_by v => sizeOf v
decreasing_by
  · simp only [JValue.arr.sizeOf_spec]
    have h := List.sizeOf_lt_of_mem x.2
    omega
  · simp only [JValue.obj.sizeOf_spec]
    have h := List.sizeOf_lt_of_mem x.2
    have h2 : sizeOf x.1.2 < sizeOf x.1 := by
      obtain ⟨⟨k, w⟩, hx⟩ := x
      simp
    omega

/-- The model of `json.dump`: the rendered string. -/
def jsonDump (v : JValue Int) : String :=
  String.mk (jdumpChars v)

/-- Decimal value of a digit-character run, most significant first. -/
def valNat (ds : List Char) : Nat :=
  ds.foldl (fun a c => 10 * a + (c.toNat - 48)) 0

/-- Split off the leading run of decimal digits. -/
def digitRun : List Char → List Char × List Char
  | [] => ([], [])
  | c :: r =>
      if isDigitCh c then
        let p := digitRun r
        (c :: p.1, p.2)
      else ([], c :: r)

/-- Parse an integer literal at the head of the input. -/
def parseNumAt (cs : List Char) : Option (Int × List Char) :=
  match cs with
  | '-' :: r =>
      match digitRun r with
      | ([], _) => none
      | (ds, rest) => some (-(valNat ds : Int), rest)
  | _ =>
      match digitRun cs with
      | ([], _) => none
      | (ds, rest) => some ((valNat ds : Int), rest)

/-- Parse the body of a string literal (after the opening quote), an
accumulator of the characters read so far in reverse. -/
def parseStrBody : List Char → List Char → Option (String × List Char)
  | _, [] => none
  | acc, '\\' :: c :: r => parseStrBody (c :: acc) r
  | acc, '"' :: r => some (String.mk acc.reverse, r)
  | acc, c :: r => parseStrBody (c :: acc) r

mutual

/-- Parse one JSON value; `fuel` bounds the recursion depth. -/
def parseV : Nat → List Char → Option (JValue Int × List Char)
  | 0, _ => none
  | fuel + 1, cs =>
      match cs with
      | '"' :: r => (parseStrBody [] r).map (fun p => (.str p.1, p.2))
      | '[' :: ']' :: r => some (.arr [], r)
      | '[' :: r => (parseItems fuel r).map (fun p => (.arr p.1, p.2))
      | '{' :: '}' :: r => some (.obj [], r)
      | '{' :: r => (parseFields fuel r).map (fun p => (.obj p.1, p.2))
      | _ => (parseNumAt cs).map (fun p => (.num p.1, p.2))

/-- Parse one-or-more comma-separated array items up to the closing `]`. -/
def parseItems : Nat → List Char → Option (List (JValue Int) × List Char)
  | 0, _ => none
  | fuel + 1, cs =>
      match parseV fuel cs with
      | none => none
      | some (v, r) =>
          match r with
          | ',' :: r2 => (parseItems fuel r2).map (fun p => (v :: p.1, p.2))
          | ']' :: r2 => some ([v], r2)
          | _ => none

/-- Parse one-or-more comma-separated object members up to the closing
brace. -/
def parseFields : Nat → List Char → Option (List (String × JValue Int) × List Char)
  | 0, _ => none
  | fuel + 1, cs =>
      match cs with
      | '"' :: r =>
          match parseStrBody [] r with
          | none => none
          | some (k, r1) =>
              match r1 with
              | ':' :: r2 =>
                  match parseV fuel r2 with
                  | none => none
                  | some (v, r3) =>
                      match r3 with
                      | ',' :: r4 => (parseFields fuel r4).map (fun p => ((k, v) :: p.1, p.2))
                      | '}' :: r4 => some ([(k, v)], r4)
                      | _ => none
              | _ => none
      | _ => none

end

/-- The model of `json.load`: parse the whole string as one value. -/
def jsonLoad (s : String) : Option (JValue Int) :=
  match parseV (s.toList.length + 1) s.toList with
  | some (v, []) => some v
  | _ => none

/-! ## Statement-level definitions -/

/-- The exclusivity check for one configuration value: a nested dict must
not hold both a `data` and a `dataFilename` key. -/
def fragOk {α : Type} : JValue α → Bool
  | .obj frag => !(dhas frag "data" && dhas frag "dataFilename")
  | _ => true

/-- The inline-vs-external exclusivity invariant over a configuration: every
top-level fragment passes `fragOk`. -/
def fragsExclusive {α : Type} (d : JObj α) : Bool :=
  d.all fun kv => fragOk kv.2

/-- Modelled from the spec: one emitted trajectory row, "carrying
coordinates, species, and the frame index under the declared frame column
name". -/
def specFrameRow {α : Type} (frameCol : String) (i : α) (a : AtomRec α) : JValue α :=
  .obj [("x", .num a.px), ("y", .num a.py), ("z", .num a.pz),
        ("atom", .str a.symbol), (frameCol, .num i)]

/-- Modelled from the spec: "for each frame index i in 0..N-1, for each atom
in frame i, emit one row". -/
def specTrajRows {α : Type} [NatCast α] (frameCol : String)
    (data : List (AtomsSnap α)) : List (JValue α) :=
  data.enum.flatMap fun p => p.2.atoms.map (specFrameRow frameCol ((p.1 : Nat) : α))

/-- A concrete external environment over `Int` for witnesses. -/
def intEnv : ExtEnv Int :=
  ⟨fun _ _ => 0, id, id, fun _ => true⟩

/-- A one-atom snapshot over `Int` for witnesses. -/
def sampleSnap : AtomsSnap Int :=
  ⟨[⟨0, 0, 0, "Fe"⟩], fun _ _ => 2⟩

/-- A molecular schema without a declared species column. -/
def molPropsXYZ : DataProps Int :=
  .molecular ⟨["x", "y", "z"]⟩

/-- The framed molecular schema of examples/nparray_test.py, which declares
no species column. -/
def molPropsXYZFrame : DataProps Int :=
  .molecular ⟨["x", "y", "z", "frame"]⟩

/-- A framed molecular schema that does declare the species column. -/
def molPropsXYZAtomFrame : DataProps Int :=
  .molecular ⟨["x", "y", "z", "atom", "frame"]⟩

/-- A file-backed spatially-resolved data source with grid metadata. -/
def srdFileSample : SpatiallyResolvedDataV Int :=
  ⟨.file "density.csv", some (30, 30, 30), some (1, 1, 1), none, none⟩

/-- A 3D view holding only the file-backed spatially-resolved source. -/
def viewSrdFileSample : ThreeDViewV Int :=
  ⟨"C6H6", none, none, some srdFileSample, none, none, none⟩

/-- A spatially-resolved schema instance for witnesses. -/
def srpSample : SpatiallyResolvedDataProperties Int :=
  ⟨["x", "y", "z", "rho"], "rho", 0, 1⟩

/-- A programmatic plot with one 2D-heatmap view for the round-trip
witness. -/
def plotSample : PlotV Int :=
  ⟨[.twoD ⟨"a", "b", "log", "linear"⟩], none, some ⟨["x", "y", "z"]⟩, none, none⟩

/-- The configuration document `plotSample` produces. -/
def plotSampleDoc : JValue Int :=
  .obj [("views", .arr [.obj [("view", .obj [("viewType", .str "2DHeatmap"),
            ("plotX", .str "a"), ("plotY", .str "b"), ("plotXTransform", .str "log"),
            ("plotYTransform", .str "linear")]), ("plot_setup", .obj [])]]),
        ("plotSetup", .obj [("moleculePropertyList",
            .arr [.str "x", .str "y", .str "z", .str "atom"])])]

/-- A file-replay plot (constructed from a configuration file path). -/
def fileReplayPlot {α : Type} (path : String) : PlotV α :=
  ⟨[], none, none, none, some path⟩

/-! # Theorems

Dictionary and lookup helper lemmas first, then the per-claim theorems with
their witnesses and counterexamples. -/

theorem dget_dset {α : Type} (d : JObj α) (k k' : String) (v : JValue α) :
    dget (dset d k v) k' = if k = k' then some v else dget d k' := by
  induction d with
  | nil => by_cases h : k = k' <;> simp [dset, dget, h]
  | cons p rest ih =>
      obtain ⟨k₀, v₀⟩ := p
      simp only [dset]
      by_cases h0 : k₀ = k
      · subst h0
        simp only [if_pos rfl, dget]
        by_cases h1 : k₀ = k' <;> simp [h1]
      · simp only [if_neg h0, dget]
        by_cases h1 : k₀ = k'
        · subst h1
          have hne : ¬ k = k₀ := fun h => h0 h.symm
          simp [hne]
        · simp [h1, ih]

theorem dhas_dset {α : Type} (d : JObj α) (k k' : String) (v : JValue α) :
    dhas (dset d k v) k' = (decide (k = k') || dhas d k') := by
  by_cases h : k = k' <;> simp [dhas, dget_dset, h]

theorem pyIndex_of_mem {l : List String} {s : String} (h : s ∈ l) :
    ∃ n, pyIndex l s = some n := by
  induction l with
  | nil => cases h
  | cons a t ih =>
      by_cases ha : a = s
      · exact ⟨0, by simp [pyIndex, ha]⟩
      · have hs : s ∈ t := by
          rcases List.mem_cons.mp h with h' | h'
          · exact absurd h'.symm ha
          · exact h'
        obtain ⟨n, hn⟩ := ih hs
        exact ⟨n + 1, by simp [pyIndex, ha, hn]⟩

theorem atom_mem_withAtomColumn (cols : List String) :
    "atom" ∈ withAtomColumn cols := by
  by_cases h : "atom" ∈ cols <;> simp [withAtomColumn, h]

theorem mem_withAtomColumn_of_mem {cols : List String} {s : String} (h : s ∈ cols) :
    s ∈ withAtomColumn cols := by
  simp [withAtomColumn, h]

/-- C1: converting an N-atom snapshot with a valid molecular schema writes,
when a file handle is supplied, exactly N+1 delimited rows (the header of
schema columns in declared order with `atom` appended when absent, then one
row per atom) and a `moleculeData` fragment holding only `dataFilename`
(the file's absolute path); without a handle it produces a fragment with an
inline `data` list of exactly N row mappings and no `dataFilename` key. -/
theorem C1_snapshot_externalize_or_inline {α : Type} (env : ExtEnv α)
    (data : AtomsSnap α) (props : DataProps α) (out0 : JObj α) (f : String)
    (hx : "x" ∈ props.columns) (hy : "y" ∈ props.columns) (hz : "z" ∈ props.columns) :
    (let r := aseAtomsConvert env data props none (some f) out0
     r.error = none ∧
     r.fileRows.length = data.atoms.length + 1 ∧
     r.fileRows.head? = some ((withAtomColumn props.columns).map CsvCell.str) ∧
     ∃ frag, dget r.output "moleculeData" = some (.obj frag) ∧
       dget frag "dataFilename" = some (.str (slashPath (env.abspath f))) ∧
       dhas frag "data" = false) ∧
    (let r := aseAtomsConvert env data props none none out0
     r.error = none ∧ r.fileRows = [] ∧
     ∃ frag rows, dget r.output "moleculeData" = some (.obj frag) ∧
       dget frag "data" = some (.arr rows) ∧ rows.length = data.atoms.length ∧
       dhas frag "dataFilename" = false) := by
  obtain ⟨xi, hxi⟩ := pyIndex_of_mem (mem_withAtomColumn_of_mem hx)
  obtain ⟨yi, hyi⟩ := pyIndex_of_mem (mem_withAtomColumn_of_mem hy)
  obtain ⟨zi, hzi⟩ := pyIndex_of_mem (mem_withAtomColumn_of_mem hz)
  obtain ⟨ai, hai⟩ := pyIndex_of_mem (atom_mem_withAtomColumn props.columns)
  constructor
  · simp [aseAtomsConvert, hxi, hyi, hzi, hai, dget_dset, dhas, dget]
  · simp [aseAtomsConvert, hxi, hyi, hzi, hai, dget_dset, dhas, dget]

/-- Closed instantiation of `C1_snapshot_externalize_or_inline` at a
one-atom snapshot over `Int`. -/
theorem C1_witness :
    (let r := aseAtomsConvert intEnv sampleSnap molPropsXYZ none (some "data.csv") []
     r.error = none ∧
     r.fileRows.length = sampleSnap.atoms.length + 1 ∧
     r.fileRows.head? = some ((withAtomColumn molPropsXYZ.columns).map CsvCell.str) ∧
     ∃ frag, dget r.output "moleculeData" = some (.obj frag) ∧
       dget frag "dataFilename" = some (.str (slashPath (intEnv.abspath "data.csv"))) ∧
       dhas frag "data" = false) ∧
    (let r := aseAtomsConvert intEnv sampleSnap molPropsXYZ none none []
     r.error = none ∧ r.fileRows = [] ∧
     ∃ frag rows, dget r.output "moleculeData" = some (.obj frag) ∧
       dget frag "data" = some (.arr rows) ∧ rows.length = sampleSnap.atoms.length ∧
       dhas frag "dataFilename" = false) :=
  C1_snapshot_externalize_or_inline intEnv sampleSnap molPropsXYZ [] "data.csv"
    (by decide) (by decide) (by decide)

/-- C10: a snapshot (ASE Atoms) molecular conversion given framed properties
raises `Atoms data does not support frames` before touching the output
mapping or the data file: the outcome carries the untouched output, no file
rows, and the error. -/
theorem C10_snapshot_rejects_frames {α : Type} (env : ExtEnv α) (data : AtomsSnap α)
    (props : DataProps α) (fp : FramedDataProperties) (fileH : Option String)
    (out0 : JObj α) :
    aseAtomsConvert env data props (some fp) fileH out0 =
      ⟨out0, [], some "Atoms data does not support frames"⟩ := by
  simp [aseAtomsConvert]

/-- C7: `add_view` on a plot constructed with a configuration file path
raises and leaves the stored view list (indeed the whole plot state)
unchanged. -/
theorem C7_add_view_forbidden_in_file_replay {α : Type} (p : PlotV α) (v : ViewV α)
    (path : String) (h : p.input_configuration_file = some path) :
    (plotAddView p v).1 = p ∧
      (plotAddView p v).2 =
        some "View cannot be added when configuration file has been provided" := by
  simp [plotAddView, h]

/-- Closed instantiation of `C7_add_view_forbidden_in_file_replay` on a
file-replay plot over `Int`. -/
theorem C7_witness :
    (plotAddView (fileReplayPlot (α := Int) "cfg.json") (.twoD ⟨"a", "b", "log", "linear"⟩)).1 =
        fileReplayPlot "cfg.json" ∧
      (plotAddView (fileReplayPlot (α := Int) "cfg.json")
            (.twoD ⟨"a", "b", "log", "linear"⟩)).2 =
        some "View cannot be added when configuration file has been provided" :=
  C7_add_view_forbidden_in_file_replay (fileReplayPlot "cfg.json")
    (.twoD ⟨"a", "b", "log", "linear"⟩) "cfg.json" rfl

/-- C6: constructing a spatially-resolved schema from an explicit column
list that misses the declared density property, or misses one of x, y, z,
raises a schema `ValueError` and produces no schema object. -/
theorem C6_spatially_resolved_schema_invalid {α : Type} (cols : List String)
    (density : String) (low high : α)
    (h : density ∉ cols ∨ ¬("x" ∈ cols ∧ "y" ∈ cols ∧ "z" ∈ cols)) :
    ∃ e, mkSpatiallyResolvedDataProperties (some cols) density low high = .error e := by
  rcases h with h | h
  · exact ⟨"density_property should be available in columns list",
      by simp [mkSpatiallyResolvedDataProperties, h]⟩
  · by_cases hd : density ∈ cols
    · exact ⟨"columns list should contain 'x', 'y', 'z' and the density property at least",
        by simp [mkSpatiallyResolvedDataProperties, hd, h]⟩
    · exact ⟨"density_property should be available in columns list",
        by simp [mkSpatiallyResolvedDataProperties, hd]⟩

/-- Closed instantiation of `C6_spatially_resolved_schema_invalid`: density
property `rho` with columns `['x','y','z']`. -/
theorem C6_witness :
    ∃ e, mkSpatiallyResolvedDataProperties (α := Int) (some ["x", "y", "z"]) "rho" 0 1 =
      .error e :=
  C6_spatially_resolved_schema_invalid ["x", "y", "z"] "rho" 0 1 (Or.inl (by decide))

/-- C5: requesting a numpy-array input as spatially-resolved data is
dispatched to `ArrayToSpatiallyResolvedDataConverter`, whose `__convert__`
body is `pass`: the conversion returns normally with no error, writes no
output keys and no file rows -- it is silently accepted as a no-op instead
of being rejected with an unsupported-conversion error. -/
theorem C5_array_to_spatially_resolved_is_silent_noop {α : Type} [NatCast α]
    (env : ExtEnv α) (arr : List (List α)) (props : DataProps α)
    (framed : Option FramedDataProperties) (extra : ExtraProperties α)
    (fileH : Option String) (out0 : JObj α) :
    converterConvert env (.array arr) .spatiallyResolved props framed extra fileH out0 =
      ⟨out0, [], none⟩ :=
  rfl

theorem sum_sq_pos_of_ne {a b c : ℝ} (h : a ≠ 0 ∨ b ≠ 0 ∨ c ≠ 0) :
    0 < a ^ 2 + b ^ 2 + c ^ 2 := by
  rcases h with h | h | h <;> positivity

theorem rowNormR_pos {c : Cell3 ℝ} {i : Fin 3}
    (h : c i 0 ≠ 0 ∨ c i 1 ≠ 0 ∨ c i 2 ≠ 0) : 0 < rowNormR c i :=
  Real.sqrt_pos.mpr (sum_sq_pos_of_ne h)

theorem rowNormR_sklearnNormalize {c : Cell3 ℝ} {i : Fin 3}
    (h : c i 0 ≠ 0 ∨ c i 1 ≠ 0 ∨ c i 2 ≠ 0) :
    rowNormR (sklearnNormalize c) i = 1 := by
  have hpos : 0 < rowNormR c i := rowNormR_pos h
  have hs : 0 < c i 0 ^ 2 + c i 1 ^ 2 + c i 2 ^ 2 := sum_sq_pos_of_ne h
  have hnorm : rowNormR c i ^ 2 = c i 0 ^ 2 + c i 1 ^ 2 + c i 2 ^ 2 :=
    Real.sq_sqrt hs.le
  show Real.sqrt _ = 1
  rw [show sklearnNormalize c i 0 = c i 0 / rowNormR c i from rfl,
      show sklearnNormalize c i 1 = c i 1 / rowNormR c i from rfl,
      show sklearnNormalize c i 2 = c i 2 / rowNormR c i from rfl,
      div_pow, div_pow, div_pow, div_add_div_same, div_add_div_same, hnorm,
      div_self hs.ne']
  exact Real.sqrt_one

/-- C2 (amended): for a lattice matrix whose rows are all nonzero and whose
geometry keys were not user-overridden, the common geometry step derives
`systemDimension` as the Euclidean lengths of the original rows and
`systemLatticeVectors` as the row-normalized matrix
(`u_ij = lattice[i][j] / ||lattice[i]||`), every row of which has unit
Euclidean norm.  (For a lattice with a zero row the normalized row stays
zero and has norm 0, not 1 -- see the counterexample.) -/
theorem C2_geometry_step_norms (c : Cell3 ℝ) (out0 : JObj ℝ)
    (h1 : dhas out0 "systemDimension" = false)
    (h2 : dhas out0 "systemLatticeVectors" = false)
    (h3 : ∀ i : Fin 3, c i 0 ≠ 0 ∨ c i 1 ≠ 0 ∨ c i 2 ≠ 0) :
    dget (initAtoms realEnv c out0) "systemDimension" = some (dimObj (rowNormR c)) ∧
    dget (initAtoms realEnv c out0) "systemLatticeVectors" =
      some (latObj (sklearnNormalize c)) ∧
    (∀ i j, sklearnNormalize c i j = c i j / rowNormR c i) ∧
    (∀ i, rowNormR (sklearnNormalize c) i = 1) := by
  refine ⟨?_, ?_, fun i j => rfl, fun i => rowNormR_sklearnNormalize (h3 i)⟩
  · simp [initAtoms, h1, h2, dhas_dset, dget_dset, realEnv, aseCellLengths]
  · simp [initAtoms, h1, h2, dhas_dset, dget_dset, realEnv]

/-- Counterexample to C2 as stated: for the all-zero lattice (the default
ASE cell), the geometry step still derives `systemLatticeVectors` -- as the
sklearn-normalized matrix, whose rows stay zero -- and the first derived row
has Euclidean norm 0, not 1. -/
theorem C2_counterexample :
    dget (initAtoms realEnv zeroCell []) "systemLatticeVectors" =
        some (latObj (sklearnNormalize zeroCell)) ∧
    ¬ rowNormR (sklearnNormalize zeroCell) 0 = 1 := by
  constructor
  · simp [initAtoms, dhas, dget, dset, realEnv]
  · have hz : rowNormR (sklearnNormalize zeroCell) 0 = 0 := by
      simp [rowNormR, sklearnNormalize, zeroCell]
    rw [hz]
    norm_num

/-- Closed instantiation of `C2_geometry_step_norms` at the identity
lattice. -/
theorem C2_witness : rowNormR (sklearnNormalize idCell) 0 = 1 :=
  (C2_geometry_step_norms idCell [] rfl rfl (by
    intro i
    fin_cases i
    · exact Or.inl (by norm_num [idCell])
    · exact Or.inr (Or.inl (by norm_num [idCell]))
    · exact Or.inr (Or.inr (by norm_num [idCell])))).2.2.2 0

theorem fragsExclusive_dset {α : Type} {d : JObj α} {k : String} {v : JValue α}
    (hd : fragsExclusive d = true) (hv : fragOk v = true) :
    fragsExclusive (dset d k v) = true := by
  induction d with
  | nil => simp [fragsExclusive, dset, hv]
  | cons p rest ih =>
      obtain ⟨k0, v0⟩ := p
      simp only [fragsExclusive, List.all_cons, Bool.and_eq_true] at hd
      by_cases h : k0 = k
      · simp [dset, h, fragsExclusive, hv, hd.2]
      · have h2 := ih hd.2
        simp only [fragsExclusive] at h2
        simp [dset, h, fragsExclusive, hd.1, h2]

theorem fragsExclusive_initAtoms {α : Type} (env : ExtEnv α) (c : Cell3 α)
    {out0 : JObj α} (h : fragsExclusive out0 = true) :
    fragsExclusive (initAtoms env c out0) = true := by
  have hdim : fragOk (α := α) (dimObj (env.lengths c)) = true := by
    simp [fragOk, dimObj, dhas, dget]
  have hlat : fragOk (α := α) (latObj (env.l2normalize c)) = true := by
    simp [fragOk, latObj, dhas, dget]
  unfold initAtoms
  by_cases h1 : dhas out0 "systemDimension"
  · by_cases h2 : dhas out0 "systemLatticeVectors" <;>
      simp [h1, h2, h, fragsExclusive_dset h hlat]
  · simp only [h1, Bool.false_eq_true, if_false]
    have ho1 := fragsExclusive_dset (k := "systemDimension") h hdim
    by_cases h2 : dhas (dset out0 "systemDimension" (dimObj (env.lengths c)))
        "systemLatticeVectors" <;>
      simp [h2, ho1, fragsExclusive_dset ho1 hlat]

theorem fragOk_dataFilename {α : Type} (s : String) :
    fragOk (α := α) (.obj [("dataFilename", .str s)]) = true := by
  simp [fragOk, dhas, dget]

theorem fragOk_data {α : Type} (rows : List (JValue α)) :
    fragOk (.obj [("data", .arr rows)]) = true := by
  simp [fragOk, dhas, dget]

theorem fragOk_empty {α : Type} : fragOk (α := α) (.obj []) = true := by
  simp [fragOk, dhas, dget]

theorem fragsExclusive_aseAtomsConvert {α : Type} (env : ExtEnv α)
    (data : AtomsSnap α) (props : DataProps α)
    (framed : Option FramedDataProperties) (fileH : Option String)
    {out0 : JObj α} (h : fragsExclusive out0 = true) :
    fragsExclusive (aseAtomsConvert env data props framed fileH out0).output = true := by
  unfold aseAtomsConvert
  by_cases hf : framed.isSome
  · simp [hf, h]
  · simp only [hf, Bool.false_eq_true, if_false]
    have hbase := fragsExclusive_initAtoms env data.cell h
    cases hx : pyIndex (withAtomColumn props.columns) "x" <;>
      cases hy : pyIndex (withAtomColumn props.columns) "y" <;>
        cases hz : pyIndex (withAtomColumn props.columns) "z" <;>
          cases ha : pyIndex (withAtomColumn props.columns) "atom" <;>
            cases fileH <;>
              simp [fragsExclusive_dset hbase (fragOk_empty),
                fragsExclusive_dset hbase (fragOk_dataFilename _),
                fragsExclusive_dset hbase (fragOk_data _)]

theorem fragsExclusive_aseTrajectoryConvert {α : Type} [NatCast α] (env : ExtEnv α)
    (data : List (AtomsSnap α)) (props : DataProps α)
    (framed : Option FramedDataProperties) (fileH : Option String)
    {out0 : JObj α} (h : fragsExclusive out0 = true) :
    fragsExclusive (aseTrajectoryConvert env data props framed fileH out0).output = true := by
  unfold aseTrajectoryConvert
  cases data with
  | nil => simpa using h
  | cons frame0 rest =>
      have hbase := fragsExclusive_initAtoms env frame0.cell h
      cases hx : pyIndex (withAtomColumn props.columns) "x" <;>
        cases hy : pyIndex (withAtomColumn props.columns) "y" <;>
          cases hz : pyIndex (withAtomColumn props.columns) "z" <;>
            cases ha : pyIndex props.columns "atom" <;>
              cases hfi : (match framed with
                | some fp => (pyIndex (withAtomColumn props.columns) fp.frame_column).map some
                | none => some none) <;>
                cases fileH <;>
                  simp [hx, hy, hz, ha, hfi,
                    fragsExclusive_dset hbase (fragOk_empty),
                    fragsExclusive_dset hbase (fragOk_dataFilename _),
                    fragsExclusive_dset hbase (fragOk_data _)]

theorem fragsExclusive_arrayToMolecularConvert {α : Type} (env : ExtEnv α)
    (data : List (List α)) (props : DataProps α) (extra : ExtraProperties α)
    (fileH : Option String) {out0 : JObj α} (h : fragsExclusive out0 = true) :
    fragsExclusive (arrayToMolecularConvert env data props extra fileH out0).output = true := by
  unfold arrayToMolecularConvert
  cases extra.np_atoms with
  | none => simpa using h
  | some names =>
      cases extra.cell with
      | none => simpa using h
      | some c =>
          have hbase := fragsExclusive_initAtoms env c h
          cases fileH <;>
            simp [fragsExclusive_dset hbase (fragOk_dataFilename _),
              fragsExclusive_dset hbase (fragOk_data _)]

theorem fragsExclusive_fileToAnyConvert {α : Type} (env : ExtEnv α) (path : String)
    (target : TargetFormat) {out0 : JObj α} (h : fragsExclusive out0 = true) :
    fragsExclusive (fileToAnyConvert env path target out0).output = true := by
  unfold fileToAnyConvert
  have h1 := fragsExclusive_dset (d := out0)
    (k := match target with
      | .molecular => "moleculeData"
      | .spatiallyResolved => "spatiallyResolvedData") h (fragOk_empty)
  by_cases ho : env.openOk path <;>
    simp [ho, h1, fragsExclusive_dset h1 (fragOk_dataFilename _)]

/-- C3: no conversion -- through any converter variant and either output
mode -- ever produces a configuration whose fragments carry both an inline
`data` key and an external `dataFilename` key: starting from a
configuration satisfying the exclusivity invariant, the invariant still
holds afterwards (also on the paths that raise). -/
theorem C3_inline_external_exclusive {α : Type} [NatCast α] (env : ExtEnv α)
    (data : InputData α) (target : TargetFormat) (props : DataProps α)
    (framed : Option FramedDataProperties) (extra : ExtraProperties α)
    (fileH : Option String) (out0 : JObj α) (h : fragsExclusive out0 = true) :
    fragsExclusive
      (converterConvert env data target props framed extra fileH out0).output = true := by
  cases data with
  | file f =>
      cases target <;>
        exact fragsExclusive_fileToAnyConvert env f _ h
  | atoms a =>
      cases target with
      | molecular => exact fragsExclusive_aseAtomsConvert env a props framed fileH h
      | spatiallyResolved => simpa [converterConvert] using h
  | trajectory t =>
      cases target with
      | molecular => exact fragsExclusive_aseTrajectoryConvert env t props framed fileH h
      | spatiallyResolved => simpa [converterConvert] using h
  | array arr =>
      cases target with
      | molecular => exact fragsExclusive_arrayToMolecularConvert env arr props extra fileH h
      | spatiallyResolved => simpa [converterConvert, arrayToSpatiallyResolvedConvert] using h

/-- Closed instantiation of `C3_inline_external_exclusive`: a snapshot
conversion with a file handle starting from the empty configuration. -/
theorem C3_witness :
    fragsExclusive
      (converterConvert intEnv (.atoms sampleSnap) .molecular molPropsXYZ none
        ⟨none, none⟩ (some "data.csv") []).output = true :=
  C3_inline_external_exclusive intEnv (.atoms sampleSnap) .molecular molPropsXYZ none
    ⟨none, none⟩ (some "data.csv") [] (by decide)

/-- Counterexample to C4 as stated: a one-frame, one-atom trajectory with
the realistic framed schema `['x','y','z','frame']` (the schema of
examples/nparray_test.py, valid for `MolecularDataProperties` and for the
plot's frame-column check).  Even on the no-file path -- which never uses
the species index -- line 286 of converter.py evaluates
`properties.columns.index('atom')` and raises `ValueError`, so no rows at
all are emitted: `moleculeData` is left as the empty dict. -/
theorem C4_counterexample :
    (aseTrajectoryConvert intEnv [sampleSnap] molPropsXYZFrame
        (some ⟨"frame"⟩) none []).error = some "ValueError: column not in list" ∧
    dget (aseTrajectoryConvert intEnv [sampleSnap] molPropsXYZFrame
        (some ⟨"frame"⟩) none []).output "moleculeData" = some (.obj []) :=
  ⟨rfl, rfl⟩

theorem length_flatMap_enumFrom_atoms {α : Type} [NatCast α] (fc : String)
    (n : Nat) (data : List (AtomsSnap α)) :
    ((List.enumFrom n data).flatMap
        (fun p => p.2.atoms.map (specFrameRow fc ((p.1 : Nat) : α)))).length =
      (data.map (fun s => s.atoms.length)).sum := by
  induction data generalizing n with
  | nil => simp
  | cons d t ih => simp [List.enumFrom, ih (n + 1)]

theorem length_specTrajRows {α : Type} [NatCast α] (fc : String)
    (data : List (AtomsSnap α)) :
    (specTrajRows fc data).length = (data.map (fun s => s.atoms.length)).sum := by
  rw [specTrajRows, List.enum]
  exact length_flatMap_enumFrom_atoms fc 0 data

theorem trajInlineRow_spec {α : Type} {fc : String} (i : α) (a : AtomRec α)
    (h : fc ∉ (["x", "y", "z", "atom"] : List String)) :
    trajInlineRow (some fc) i a = specFrameRow fc i a := by
  simp only [List.mem_cons, List.not_mem_nil, or_false, not_or] at h
  obtain ⟨h1, h2, h3, h4⟩ := h
  have h1' : ¬ ("x" = fc) := fun e => h1 e.symm
  have h2' : ¬ ("y" = fc) := fun e => h2 e.symm
  have h3' : ¬ ("z" = fc) := fun e => h3 e.symm
  have h4' : ¬ ("atom" = fc) := fun e => h4 e.symm
  simp [trajInlineRow, specFrameRow, dset, h1', h2', h3', h4']

/-- C4 (amended): for a nonempty trajectory converted with a declared frame
column and no output file, PROVIDED the schema also declares the species
column `atom` (and the frame column is none of x/y/z/atom), the converter
emits one inline row per atom per frame in frame-index order, each carrying
the coordinates, the species, and the frame index under the declared frame
column name, and the geometry keys are exactly those derived from frame 0's
cell alone.  (Without `atom` among the declared columns the conversion
raises instead -- see the counterexample.) -/
theorem C4_trajectory_inline_rows {α : Type} [NatCast α] (env : ExtEnv α)
    (d0 : AtomsSnap α) (rest : List (AtomsSnap α)) (props : DataProps α)
    (fp : FramedDataProperties) (out0 : JObj α)
    (hx : "x" ∈ props.columns) (hy : "y" ∈ props.columns) (hz : "z" ∈ props.columns)
    (hatom : "atom" ∈ props.columns) (hfc : fp.frame_column ∈ props.columns)
    (hdisj : fp.frame_column ∉ (["x", "y", "z", "atom"] : List String)) :
    (let r := aseTrajectoryConvert env (d0 :: rest) props (some fp) none out0
     r.error = none ∧ r.fileRows = [] ∧
     dget r.output "moleculeData" =
       some (.obj [("data", .arr (specTrajRows fp.frame_column (d0 :: rest)))]) ∧
     (specTrajRows fp.frame_column (d0 :: rest)).length =
       ((d0 :: rest).map (fun s => s.atoms.length)).sum ∧
     dget r.output "systemDimension" = dget (initAtoms env d0.cell out0) "systemDimension" ∧
     dget r.output "systemLatticeVectors" =
       dget (initAtoms env d0.cell out0) "systemLatticeVectors") := by
  obtain ⟨xi, hxi⟩ := pyIndex_of_mem (mem_withAtomColumn_of_mem hx)
  obtain ⟨yi, hyi⟩ := pyIndex_of_mem (mem_withAtomColumn_of_mem hy)
  obtain ⟨zi, hzi⟩ := pyIndex_of_mem (mem_withAtomColumn_of_mem hz)
  obtain ⟨ai, hai⟩ := pyIndex_of_mem hatom
  obtain ⟨fi, hfi⟩ := pyIndex_of_mem (mem_withAtomColumn_of_mem hfc)
  have hrowfun :
      (trajInlineRow (some fp.frame_column) : α → AtomRec α → JValue α) =
        specFrameRow fp.frame_column :=
    funext fun i => funext fun a => trajInlineRow_spec i a hdisj
  simp only [aseTrajectoryConvert, hxi, hyi, hzi, hai, hfi, Option.map_some]
  refine ⟨rfl, rfl, ?_, length_specTrajRows fp.frame_column (d0 :: rest), ?_, ?_⟩
  · simp [dget_dset, specTrajRows, hrowfun]
  · simp [dget_dset]
  · simp [dget_dset]

/-- Closed instantiation of `C4_trajectory_inline_rows` at a two-frame
trajectory over `Int` with schema `['x','y','z','atom','frame']`. -/
theorem C4_witness :
    (let r := aseTrajectoryConvert intEnv [sampleSnap, sampleSnap]
        molPropsXYZAtomFrame (some ⟨"frame"⟩) none []
     r.error = none ∧ r.fileRows = [] ∧
     dget r.output "moleculeData" =
       some (.obj [("data", .arr (specTrajRows "frame" [sampleSnap, sampleSnap]))]) ∧
     (specTrajRows "frame" [sampleSnap, sampleSnap]).length =
       (([sampleSnap, sampleSnap] : List (AtomsSnap Int)).map
         (fun s => s.atoms.length)).sum ∧
     dget r.output "systemDimension" =
       dget (initAtoms intEnv sampleSnap.cell []) "systemDimension" ∧
     dget r.output "systemLatticeVectors" =
       dget (initAtoms intEnv sampleSnap.cell []) "systemLatticeVectors") :=
  C4_trajectory_inline_rows intEnv sampleSnap [sampleSnap] molPropsXYZAtomFrame
    ⟨"frame"⟩ [] (by decide) (by decide) (by decide) (by decide) (by decide) (by decide)

theorem dget_initAtoms_ne {α : Type} (env : ExtEnv α) (c : Cell3 α) (d : JObj α)
    (k : String) (h1 : ¬ ("systemDimension" = k)) (h2 : ¬ ("systemLatticeVectors" = k)) :
    dget (initAtoms env c d) k = dget d k := by
  unfold initAtoms
  have hd1 : dget (if dhas d "systemDimension" then d
      else dset d "systemDimension" (dimObj (env.lengths c))) k = dget d k := by
    by_cases a1 : dhas d "systemDimension" <;> simp [a1, dget_dset, h1]
  by_cases a2 : dhas (if dhas d "systemDimension" then d
      else dset d "systemDimension" (dimObj (env.lengths c))) "systemLatticeVectors" <;>
    simp [a2, dget_dset, h2, hd1]

theorem dget_aseAtomsConvert_ne {α : Type} (env : ExtEnv α) (data : AtomsSnap α)
    (props : DataProps α) (framed : Option FramedDataProperties)
    (fileH : Option String) (out0 : JObj α) (k : String)
    (h1 : ¬ ("systemDimension" = k)) (h2 : ¬ ("systemLatticeVectors" = k))
    (h3 : ¬ ("moleculeData" = k)) :
    dget (aseAtomsConvert env data props framed fileH out0).output k = dget out0 k := by
  have hinit := dget_initAtoms_ne env data.cell out0 k h1 h2
  unfold aseAtomsConvert
  by_cases hf : framed.isSome
  · simp [hf]
  · cases hx : pyIndex (withAtomColumn props.columns) "x" <;>
      cases hy : pyIndex (withAtomColumn props.columns) "y" <;>
        cases hz : pyIndex (withAtomColumn props.columns) "z" <;>
          cases ha : pyIndex (withAtomColumn props.columns) "atom" <;>
            cases fileH <;>
              simp [hf, hx, hy, hz, ha, dget_dset, h3, hinit]

theorem dget_aseTrajectoryConvert_ne {α : Type} [NatCast α] (env : ExtEnv α)
    (data : List (AtomsSnap α)) (props : DataProps α)
    (framed : Option FramedDataProperties) (fileH : Option String)
    (out0 : JObj α) (k : String)
    (h1 : ¬ ("systemDimension" = k)) (h2 : ¬ ("systemLatticeVectors" = k))
    (h3 : ¬ ("moleculeData" = k)) :
    dget (aseTrajectoryConvert env data props framed fileH out0).output k = dget out0 k := by
  unfold aseTrajectoryConvert
  cases data with
  | nil => rfl
  | cons frame0 rest =>
      have hinit := dget_initAtoms_ne env frame0.cell out0 k h1 h2
      cases hx : pyIndex (withAtomColumn props.columns) "x" <;>
        cases hy : pyIndex (withAtomColumn props.columns) "y" <;>
          cases hz : pyIndex (withAtomColumn props.columns) "z" <;>
            cases ha : pyIndex props.columns "atom" <;>
              cases hfi : (match framed with
                | some fp => (pyIndex (withAtomColumn props.columns) fp.frame_column).map some
                | none => some none) <;>
                cases fileH <;>
                  simp [hx, hy, hz, ha, hfi, dget_dset, h3, hinit]

theorem dget_arrayToMolecularConvert_ne {α : Type} (env : ExtEnv α)
    (data : List (List α)) (props : DataProps α) (extra : ExtraProperties α)
    (fileH : Option String) (out0 : JObj α) (k : String)
    (h1 : ¬ ("systemDimension" = k)) (h2 : ¬ ("systemLatticeVectors" = k))
    (h3 : ¬ ("moleculeData" = k)) :
    dget (arrayToMolecularConvert env data props extra fileH out0).output k = dget out0 k := by
  unfold arrayToMolecularConvert
  cases extra.np_atoms with
  | none => rfl
  | some names =>
      cases extra.cell with
      | none => rfl
      | some c =>
          have hinit := dget_initAtoms_ne env c out0 k h1 h2
          cases fileH <;> simp [dget_dset, h3, hinit]

theorem dget_molecularConvert_ne {α : Type} [NatCast α] (env : ExtEnv α)
    (data : InputData α) (props : DataProps α)
    (framed : Option FramedDataProperties) (extra : ExtraProperties α)
    (fileH : Option String) (out0 : JObj α) (k : String)
    (h1 : ¬ ("systemDimension" = k)) (h2 : ¬ ("systemLatticeVectors" = k))
    (h3 : ¬ ("moleculeData" = k)) :
    dget (converterConvert env data .molecular props framed extra fileH out0).output k =
      dget out0 k := by
  cases data with
  | file f =>
      by_cases ho : env.openOk f <;>
        simp [converterConvert, fileToAnyConvert, ho, dget_dset, h3]
  | atoms a => exact dget_aseAtomsConvert_ne env a props framed fileH out0 k h1 h2 h3
  | trajectory t => exact dget_aseTrajectoryConvert_ne env t props framed fileH out0 k h1 h2 h3
  | array arr => exact dget_arrayToMolecularConvert_ne env arr props extra fileH out0 k h1 h2 h3

theorem gridEntries_keys {α : Type} (srd : SpatiallyResolvedDataV α) :
    (∀ kv ∈ gpEntries srd ++ gsEntries srd,
        kv.1 = "numGridPoints" ∨ kv.1 = "gridSpacing") ∧
      dhas (gpEntries srd ++ gsEntries srd) "dataFilename" = false := by
  rcases hgp : srd.grid_points with - | ⟨a, b, c⟩ <;>
    rcases hgs : srd.grid_spacing with - | ⟨d, e, f⟩ <;>
      simp [gpEntries, gsEntries, hgp, hgs, dhas, dget]

theorem srdAddConfiguration_file_eq {α : Type} [NatCast α] (env : ExtEnv α)
    (srd : SpatiallyResolvedDataV α) (config : JObj α) (props : DataProps α)
    (framed : Option FramedDataProperties) (fileH : Option String) (path : String)
    (hpath : srd.data = .file path) (ho : env.openOk path = true) :
    srdAddConfiguration env srd config props framed fileH =
      ⟨dset (dset (dset config "spatiallyResolvedData" (.obj []))
            "spatiallyResolvedData"
            (.obj [("dataFilename", .str (slashPath (env.abspath path)))]))
          "spatiallyResolvedData" (.obj (gpEntries srd ++ gsEntries srd)),
        [], none⟩ := by
  simp [srdAddConfiguration, hpath, converterConvert, fileToAnyConvert, ho]

theorem srdAddConfiguration_file_ioerror {α : Type} [NatCast α] (env : ExtEnv α)
    (srd : SpatiallyResolvedDataV α) (config : JObj α) (props : DataProps α)
    (framed : Option FramedDataProperties) (fileH : Option String) (path : String)
    (hpath : srd.data = .file path) (ho : env.openOk path = false) :
    srdAddConfiguration env srd config props framed fileH =
      ⟨dset config "spatiallyResolvedData" (.obj []), [], some "IOError"⟩ := by
  simp [srdAddConfiguration, hpath, converterConvert, fileToAnyConvert, ho]

theorem dget_applyDefaultGeometry_ne {α : Type} [NatCast α] (out : JObj α) (k : String)
    (h1 : ¬ ("systemDimension" = k)) (h2 : ¬ ("systemLatticeVectors" = k)) :
    dget (applyDefaultGeometry out) k = dget out k := by
  unfold applyDefaultGeometry
  have step2 : ∀ (d : JObj α) (w : JValue α), dget d k = dget out k →
      dget (if dhas d "systemLatticeVectors" then d
        else dset d "systemLatticeVectors" w) k = dget out k := by
    intro d w hd
    by_cases b : dhas d "systemLatticeVectors"
    · rw [if_pos b]
      exact hd
    · rw [if_neg b, dget_dset]
      simp [h2, hd]
  have step1 : ∀ w : JValue α,
      dget (if dhas out "systemDimension" then out
        else dset out "systemDimension" w) k = dget out k := by
    intro w
    by_cases a : dhas out "systemDimension"
    · rw [if_pos a]
    · rw [if_neg a, dget_dset]
      simp [h1]
  exact step2 _ _ (step1 _)

/-- C9: when a `ThreeDView`'s spatially-resolved data is given as a file
path and `get_configuration` returns, the returned configuration's
`spatiallyResolvedData` mapping holds at most the grid-metadata keys
(`numGridPoints`, `gridSpacing`): the fragment the file converter wrote --
including its `dataFilename` entry -- was replaced by a fresh dict before
the grid metadata was added, so the file path never appears there. -/
theorem C9_file_srd_grid_only {α : Type} [NatCast α] (env : ExtEnv α)
    (v : ThreeDViewV α) (srd : SpatiallyResolvedDataV α) (path : String)
    (p : SpatiallyResolvedDataProperties α) (mp : Option MolecularDataProperties)
    (fpr : Option FramedDataProperties)
    (hsrd : v.spatially_resolved_data = some srd) (hpath : srd.data = .file path)
    (herr : (threeDViewGetConfiguration env v (some p) mp fpr).error = none) :
    ∃ frag,
      dget (threeDViewGetConfiguration env v (some p) mp fpr).output
          "spatiallyResolvedData" = some (.obj frag) ∧
        (∀ kv ∈ frag, kv.1 = "numGridPoints" ∨ kv.1 = "gridSpacing") ∧
        dhas frag "dataFilename" = false := by
  refine ⟨gpEntries srd ++ gsEntries srd, ?_, (gridEntries_keys srd).1,
    (gridEntries_keys srd).2⟩
  by_cases ho : env.openOk path
  · simp only [threeDViewGetConfiguration, hsrd] at herr ⊢
    rw [srdAddConfiguration_file_eq env srd (viewHeaderConfig v) (.spatiallyResolved p) fpr
        v.spatially_resolved_output_file path hpath ho] at herr ⊢
    cases mp with
    | none =>
        dsimp only at herr ⊢
        rw [dget_applyDefaultGeometry_ne _ _ (by decide) (by decide)]
        simp [dget_dset]
    | some pm =>
        cases hmd : v.molecular_data with
        | none =>
            rw [hmd] at herr
            simp at herr
        | some md =>
            rw [hmd] at herr
            dsimp only at herr ⊢
            cases hr2 : (mdAddConfiguration env md
                (dset (dset (dset (viewHeaderConfig v) "spatiallyResolvedData" (.obj []))
                    "spatiallyResolvedData"
                    (.obj [("dataFilename", .str (slashPath (env.abspath path)))]))
                  "spatiallyResolvedData" (.obj (gpEntries srd ++ gsEntries srd)))
                (.molecular pm) fpr v.molecular_output_file).error with
            | some e => rw [hr2] at herr; simp at herr
            | none =>
                rw [hr2] at herr
                dsimp only at herr ⊢
                rw [dget_applyDefaultGeometry_ne _ _ (by decide) (by decide),
                  mdAddConfiguration,
                  dget_molecularConvert_ne env md.data (.molecular pm) fpr
                    ⟨md.np_atoms, md.ase_cell⟩ v.molecular_output_file _
                    "spatiallyResolvedData" (by decide) (by decide) (by decide)]
                simp [dget_dset]
  · simp only [threeDViewGetConfiguration, hsrd] at herr
    rw [srdAddConfiguration_file_ioerror env srd (viewHeaderConfig v) (.spatiallyResolved p)
      fpr v.spatially_resolved_output_file path hpath (by simpa using ho)] at herr
    simp at herr

/-- Closed instantiation of `C9_file_srd_grid_only` on a concrete view over
`Int` whose spatially-resolved data is the file path `density.csv`. -/
theorem C9_witness :
    ∃ frag,
      dget (threeDViewGetConfiguration intEnv viewSrdFileSample (some srpSample)
          none none).output "spatiallyResolvedData" = some (.obj frag) ∧
        (∀ kv ∈ frag, kv.1 = "numGridPoints" ∨ kv.1 = "gridSpacing") ∧
        dhas frag "dataFilename" = false :=
  C9_file_srd_grid_only intEnv viewSrdFileSample srdFileSample "density.csv" srpSample
    none none rfl rfl rfl

/-! ## Round-trip of the JSON codec model -/

theorem digitCh_fin (d : Fin 10) :
    isDigitCh (digitCh d.val) = true ∧ (digitCh d.val).toNat - 48 = d.val := by
  fin_cases d <;> exact ⟨rfl, rfl⟩

theorem isDigitCh_digitCh (d : Nat) (h : d < 10) : isDigitCh (digitCh d) = true :=
  (digitCh_fin ⟨d, h⟩).1

theorem digitCh_val (d : Nat) (h : d < 10) : (digitCh d).toNat - 48 = d :=
  (digitCh_fin ⟨d, h⟩).2

theorem natChars_ne_nil (n : Nat) : natChars n ≠ [] := by
  rw [natChars]
  by_cases h : n < 10 <;> simp [h]

theorem natChars_digits (n : Nat) : ∀ c ∈ natChars n, isDigitCh c = true := by
  induction n using Nat.strongRecOn with
  | _ n ih =>
      intro c hc
      rw [natChars] at hc
      by_cases h : n < 10
      · rw [if_pos h] at hc
        simp only [List.mem_singleton] at hc
        subst hc
        exact isDigitCh_digitCh n h
      · rw [if_neg h] at hc
        rcases List.mem_append.mp hc with hc | hc
        · exact ih (n / 10) (by omega) c hc
        · simp only [List.mem_singleton] at hc
          subst hc
          exact isDigitCh_digitCh (n % 10) (by omega)

theorem natChars_head_digit (n : Nat) :
    ∃ c t, natChars n = c :: t ∧ isDigitCh c = true := by
  rcases h : natChars n with - | ⟨c, t⟩
  · exact absurd h (natChars_ne_nil n)
  · exact ⟨c, t, rfl, natChars_digits n c (h ▸ List.mem_cons_self c t)⟩

theorem valNat_append (ds es : List Char) :
    valNat (ds ++ es) = es.foldl (fun a c => 10 * a + (c.toNat - 48)) (valNat ds) := by
  simp [valNat, List.foldl_append]

theorem valNat_natChars (n : Nat) : valNat (natChars n) = n := by
  induction n using Nat.strongRecOn with
  | _ n ih =>
      rw [natChars]
      by_cases h : n < 10
      · simp [h, valNat, digitCh_val n h]
      · rw [if_neg h, valNat_append, List.foldl_cons, List.foldl_nil,
          ih (n / 10) (by omega), digitCh_val (n % 10) (by omega)]
        omega

theorem digitRun_app (ds rest : List Char) (hds : ∀ c ∈ ds, isDigitCh c = true)
    (hrest : digitRun rest = ([], rest)) :
    digitRun (ds ++ rest) = (ds, rest) := by
  induction ds with
  | nil => simpa using hrest
  | cons c t ih =>
      have hc : isDigitCh c = true := hds c (List.mem_cons_self c t)
      have ht := ih (fun x hx => hds x (List.mem_cons_of_mem c hx))
      simp [digitRun, hc, ht]

theorem digitRun_stop (c : Char) (t : List Char) (h : isDigitCh c = false) :
    digitRun (c :: t) = ([], c :: t) := by
  simp [digitRun, h]

theorem parseNumAt_not_minus (c : Char) (t : List Char) (h : ¬ (c = '-')) :
    parseNumAt (c :: t) =
      (match digitRun (c :: t) with
        | ([], _) => none
        | (ds, rest) => some ((valNat ds : Int), rest)) := by
  rw [parseNumAt.eq_def]
  split
  · rename_i r heq
    injection heq with h1 h2
    exact absurd h1 h
  · rfl

theorem parseNumAt_intChars (i : Int) (rest : List Char)
    (hrest : digitRun rest = ([], rest)) :
    parseNumAt (intChars i ++ rest) = some (i, rest) := by
  by_cases hneg : i < 0
  · have harg : intChars i ++ rest = '-' :: (natChars i.natAbs ++ rest) := by
      simp [intChars, hneg]
    have hdr : digitRun (natChars i.natAbs ++ rest) = (natChars i.natAbs, rest) :=
      digitRun_app _ _ (natChars_digits _) hrest
    rcases natChars_head_digit i.natAbs with ⟨c, t, hct, -⟩
    rw [harg, parseNumAt, hdr, hct]
    have hval : -((valNat (c :: t) : Int)) = i := by
      rw [← hct, valNat_natChars]
      omega
    simp [hval]
  · rcases natChars_head_digit i.natAbs with ⟨c, t, hct, hcd⟩
    have harg : intChars i ++ rest = c :: (t ++ rest) := by
      simp [intChars, hneg, hct]
    have hcm : ¬ (c = '-') := by
      intro e
      subst e
      exact absurd hcd (by decide)
    have hdr : digitRun (c :: (t ++ rest)) = (c :: t, rest) := by
      have h0 := digitRun_app (natChars i.natAbs) rest (natChars_digits _) hrest
      rw [hct] at h0
      simpa using h0
    rw [harg, parseNumAt_not_minus c _ hcm, hdr]
    have hval : ((valNat (c :: t) : Nat) : Int) = i := by
      rw [← hct, valNat_natChars]
      omega
    simp [hval]

theorem parseStrBody_esc (c : Char) (acc rest : List Char) :
    parseStrBody acc (escChar c ++ rest) = parseStrBody (c :: acc) rest := by
  by_cases h : c = '"' ∨ c = '\\'
  · have harg : escChar c ++ rest = '\\' :: c :: rest := by
      rcases h with h | h <;> simp [escChar, h]
    rw [harg]
    rfl
  · push_neg at h
    obtain ⟨h1, h2⟩ := h
    have harg : escChar c ++ rest = c :: rest := by simp [escChar, h1, h2]
    rw [harg, parseStrBody.eq_def]
    split
    · rename_i heq
      cases heq
    · rename_i c' r heq
      injection heq with hc hr
      exact absurd hc h2
    · rename_i r heq
      injection heq with hc hr
      exact absurd hc h1
    · rename_i c' r heq
      injection heq with hc hr
      rw [hc, hr]

theorem parseStrBody_flatMap (cs : List Char) : ∀ (acc rest : List Char),
    parseStrBody acc (cs.flatMap escChar ++ '"' :: rest) =
      some (String.mk (acc.reverse ++ cs), rest) := by
  induction cs with
  | nil =>
      intro acc rest
      simp [parseStrBody]
  | cons c t ih =>
      intro acc rest
      rw [List.flatMap_cons, List.append_assoc, parseStrBody_esc, ih]
      simp

theorem parseStrBody_strChars (s : String) (rest : List Char) :
    parseStrBody [] (s.toList.flatMap escChar ++ '"' :: rest) = some (s, rest) := by
  rw [parseStrBody_flatMap]
  rfl

theorem jdumpChars_num (i : Int) : jdumpChars (.num i) = intChars i := by
  rw [jdumpChars]

theorem jdumpChars_str (s : String) : jdumpChars (.str s) = strChars s := by
  rw [jdumpChars]

theorem jdumpChars_arr (l : List (JValue Int)) :
    jdumpChars (.arr l) = '[' :: (joinComma (l.map jdumpChars) ++ [']']) := by
  rw [jdumpChars]
  congr 2
  exact congrArg joinComma (List.attach_map_coe l jdumpChars)

theorem jdumpChars_obj (l : List (String × JValue Int)) :
    jdumpChars (.obj l) =
      '{' :: (joinComma (l.map fun q => strChars q.1 ++ ':' :: jdumpChars q.2) ++ ['}']) := by
  rw [jdumpChars]
  congr 2
  exact congrArg joinComma
    (List.attach_map_coe l (fun q => strChars q.1 ++ ':' :: jdumpChars q.2))

theorem digit_ne_marks {c : Char} (h : isDigitCh c = true) :
    ¬ (c = '"') ∧ ¬ (c = '[') ∧ ¬ (c = '{') ∧ ¬ (c = ']') ∧ ¬ (c = '}') ∧
      ¬ (c = ',') ∧ ¬ (c = ':') ∧ ¬ (c = '-') := by
  refine ⟨?_, ?_, ?_, ?_, ?_, ?_, ?_, ?_⟩ <;>
    (intro e; subst e; exact absurd h (by decide))

theorem jdump_head (v : JValue Int) :
    ∃ c t, jdumpChars v = c :: t ∧
      ¬ (c = ']') ∧ ¬ (c = '}') ∧ ¬ (c = ',') ∧ ¬ (c = ':') := by
  cases v with
  | num i =>
      by_cases hneg : i < 0
      · exact ⟨'-', natChars i.natAbs,
          by simp [jdumpChars, intChars, hneg], by decide, by decide, by decide, by decide⟩
      · rcases natChars_head_digit i.natAbs with ⟨c, t, hct, hcd⟩
        obtain ⟨-, -, -, h4, h5, h6, h7, -⟩ := digit_ne_marks hcd
        exact ⟨c, t, by simp [jdumpChars, intChars, hneg, hct], h4, h5, h6, h7⟩
  | str s =>
      exact ⟨'"', s.toList.flatMap escChar ++ ['"'], jdumpChars_str s, by decide,
        by decide, by decide, by decide⟩
  | arr l =>
      exact ⟨'[', joinComma (l.map jdumpChars) ++ [']'], jdumpChars_arr l, by decide,
        by decide, by decide, by decide⟩
  | obj l =>
      exact ⟨'{', joinComma (l.map fun q => strChars q.1 ++ ':' :: jdumpChars q.2) ++ ['}'],
        jdumpChars_obj l, by decide, by decide, by decide, by decide⟩

theorem parseV_quote (f : Nat) (r : List Char) :
    parseV (f + 1) ('"' :: r) =
      (parseStrBody [] r).map (fun p => (.str p.1, p.2)) :=
  rfl

theorem parseV_lbracket (f : Nat) (c : Char) (t : List Char) (h : ¬ (c = ']')) :
    parseV (f + 1) ('[' :: c :: t) =
      (parseItems f (c :: t)).map (fun p => (.arr p.1, p.2)) := by
  simp only [parseV]
  split
  · rename_i r heq
    cases heq
  · rename_i r heq
    injection heq with h1 h2
    injection h2 with h2 h3
    exact absurd h2 h
  · rename_i r heq
    injection heq with h1 h2
    rw [h2]
  · rename_i r heq
    cases heq
  · rename_i r heq
    cases heq
  · rename_i hno1 hno2 hno3 hno4 hno5
    exact absurd rfl (hno3 (c :: t))

theorem parseV_lbrace (f : Nat) (c : Char) (t : List Char) (h : ¬ (c = '}')) :
    parseV (f + 1) ('{' :: c :: t) =
      (parseFields f (c :: t)).map (fun p => (.obj p.1, p.2)) := by
  simp only [parseV]
  split
  · rename_i r heq
    cases heq
  · rename_i r heq
    cases heq
  · rename_i r heq
    cases heq
  · rename_i r heq
    injection heq with h1 h2
    injection h2 with h2 h3
    exact absurd h2 h
  · rename_i r heq
    injection heq with h1 h2
    rw [h2]
  · rename_i hno1 hno2 hno3 hno4 hno5
    exact absurd rfl (hno5 (c :: t))

theorem parseV_num_head (f : Nat) (c : Char) (t : List Char)
    (h1 : ¬ (c = '"')) (h2 : ¬ (c = '[')) (h3 : ¬ (c = '{')) :
    parseV (f + 1) (c :: t) =
      (parseNumAt (c :: t)).map (fun p => (.num p.1, p.2)) := by
  simp only [parseV]
  split
  · rename_i r heq
    injection heq with hx hy
    exact absurd hx h1
  · rename_i r heq
    injection heq with hx hy
    exact absurd hx h2
  · rename_i r heq
    injection heq with hx hy
    exact absurd hx h2
  · rename_i r heq
    injection heq with hx hy
    exact absurd hx h3
  · rename_i r heq
    injection heq with hx hy
    exact absurd hx h3
  · rfl

theorem joinComma_single (x : List Char) : joinComma [x] = x := rfl

theorem joinComma_cons2 (x y : List Char) (ys : List (List Char)) :
    joinComma (x :: y :: ys) = x ++ ',' :: joinComma (y :: ys) := rfl

mutual

theorem rt_v : ∀ (v : JValue Int) (f : Nat) (rest : List Char),
    (jdumpChars v).length < f → digitRun rest = ([], rest) →
    parseV f (jdumpChars v ++ rest) = some (v, rest)
  | .num i, f, rest, hf, hrest => by
      cases f with
      | zero => exact absurd hf (Nat.not_lt_zero _)
      | succ f =>
          rw [jdumpChars_num]
          by_cases hneg : i < 0
          · have harg : intChars i ++ rest = '-' :: (natChars i.natAbs ++ rest) := by
              simp [intChars, hneg]
            rw [harg, parseV_num_head f '-' _ (by decide) (by decide) (by decide),
              ← harg, parseNumAt_intChars i rest hrest]
            rfl
          · rcases natChars_head_digit i.natAbs with ⟨c, t, hct, hcd⟩
            obtain ⟨m1, m2, m3, -, -, -, -, -⟩ := digit_ne_marks hcd
            have harg : intChars i ++ rest = c :: (t ++ rest) := by
              simp [intChars, hneg, hct]
            rw [harg, parseV_num_head f c _ m1 m2 m3, ← harg,
              parseNumAt_intChars i rest hrest]
            rfl
  | .str s, f, rest, hf, hrest => by
      cases f with
      | zero => exact absurd hf (Nat.not_lt_zero _)
      | succ f =>
          rw [jdumpChars_str]
          have harg : strChars s ++ rest
              = '"' :: (s.toList.flatMap escChar ++ ('"' :: rest)) := by
            simp [strChars]
          rw [harg, parseV_quote, parseStrBody_strChars]
          rfl
  | .arr [], f, rest, hf, hrest => by
      cases f with
      | zero => exact absurd hf (Nat.not_lt_zero _)
      | succ f =>
          have harg : jdumpChars (.arr []) ++ rest = '[' :: ']' :: rest := by
            rw [jdumpChars_arr]
            simp [joinComma]
          rw [harg]
          rfl
  | .arr (e :: l), f, rest, hf, hrest => by
      cases f with
      | zero => exact absurd hf (Nat.not_lt_zero _)
      | succ f =>
          rcases jdump_head e with ⟨c, t, hct, hc1, -, -, -⟩
          obtain ⟨R, hR⟩ : ∃ R, joinComma ((e :: l).map jdumpChars) = jdumpChars e ++ R := by
            cases l with
            | nil => exact ⟨[], by simp [joinComma]⟩
            | cons x xs =>
                exact ⟨',' :: joinComma ((x :: xs).map jdumpChars), by
                  simp [joinComma_cons2]⟩
          have harg : jdumpChars (.arr (e :: l)) ++ rest
              = '[' :: c :: (t ++ (R ++ (']' :: rest))) := by
            rw [jdumpChars_arr, hR, hct]
            simp
          have hback : c :: (t ++ (R ++ (']' :: rest)))
              = joinComma ((e :: l).map jdumpChars) ++ ']' :: rest := by
            rw [hR, hct]
            simp
          have hlen : (joinComma ((e :: l).map jdumpChars)).length + 1 < f := by
            rw [jdumpChars_arr] at hf
            simp only [List.length_cons, List.length_append, List.length_singleton] at hf
            omega
          rw [harg, parseV_lbracket f c _ hc1, hback, rt_items e l f rest hlen]
          rfl
  | .obj [], f, rest, hf, hrest => by
      cases f with
      | zero => exact absurd hf (Nat.not_lt_zero _)
      | succ f =>
          have harg : jdumpChars (.obj []) ++ rest = '{' :: '}' :: rest := by
            rw [jdumpChars_obj]
            simp [joinComma]
          rw [harg]
          rfl
  | .obj (kv :: l), f, rest, hf, hrest => by
      cases f with
      | zero => exact absurd hf (Nat.not_lt_zero _)
      | succ f =>
          obtain ⟨R, hR⟩ : ∃ R, joinComma ((kv :: l).map
                fun q => strChars q.1 ++ ':' :: jdumpChars q.2)
              = (strChars kv.1 ++ ':' :: jdumpChars kv.2) ++ R := by
            cases l with
            | nil => exact ⟨[], by simp [joinComma]⟩
            | cons x xs =>
                exact ⟨',' :: joinComma ((x :: xs).map
                    fun q => strChars q.1 ++ ':' :: jdumpChars q.2), by
                  simp [joinComma_cons2]⟩
          have harg : jdumpChars (.obj (kv :: l)) ++ rest
              = '{' :: '"' :: ((kv.1.toList.flatMap escChar ++ ['"'])
                  ++ (':' :: jdumpChars kv.2 ++ (R ++ ('}' :: rest)))) := by
            rw [jdumpChars_obj, hR]
            simp [strChars]
          have hback : ('"' : Char) :: ((kv.1.toList.flatMap escChar ++ ['"'])
                  ++ (':' :: jdumpChars kv.2 ++ (R ++ ('}' :: rest))))
              = joinComma ((kv :: l).map fun q => strChars q.1 ++ ':' :: jdumpChars q.2)
                ++ '}' :: rest := by
            rw [hR]
            simp [strChars]
          have hlen : (joinComma ((kv :: l).map
                fun q => strChars q.1 ++ ':' :: jdumpChars q.2)).length + 1 < f := by
            rw [jdumpChars_obj] at hf
            simp only [List.length_cons, List.length_append, List.length_singleton] at hf
            omega
          rw [harg, parseV_lbrace f '"' _ (by decide), hback, rt_fields kv l f rest hlen]
          rfl
termination_by v _ _ _ _ => sizeOf v

theorem rt_items : ∀ (e : JValue Int) (l : List (JValue Int)) (f : Nat) (rest : List Char),
    (joinComma ((e :: l).map jdumpChars)).length + 1 < f →
    parseItems f (joinComma ((e :: l).map jdumpChars) ++ ']' :: rest) = some (e :: l, rest)
  | e, [], f, rest, hlen => by
      cases f with
      | zero => omega
      | succ f =>
          have hlen1 : (jdumpChars e).length < f := by
            simp [joinComma] at hlen
            omega
          have harg : joinComma ([e].map jdumpChars) ++ ']' :: rest
              = jdumpChars e ++ (']' :: rest) := by
            simp [joinComma]
          rw [harg]
          simp only [parseItems]
          rw [rt_v e f (']' :: rest) hlen1 (digitRun_stop ']' rest (by decide))]
          rfl
  | e, x :: xs, f, rest, hlen => by
      cases f with
      | zero => omega
      | succ f =>
          have hsplit : joinComma ((e :: x :: xs).map jdumpChars)
              = jdumpChars e ++ ',' :: joinComma ((x :: xs).map jdumpChars) := by
            simp [joinComma_cons2]
          have hlen1 : (jdumpChars e).length < f := by
            rw [hsplit] at hlen
            simp only [List.length_append, List.length_cons] at hlen
            omega
          have hlen2 : (joinComma ((x :: xs).map jdumpChars)).length + 1 < f := by
            rw [hsplit] at hlen
            simp only [List.length_append, List.length_cons] at hlen
            omega
          have harg : joinComma ((e :: x :: xs).map jdumpChars) ++ ']' :: rest
              = jdumpChars e
                ++ (',' :: (joinComma ((x :: xs).map jdumpChars) ++ ']' :: rest)) := by
            rw [hsplit]
            simp
          rw [harg]
          simp only [parseItems]
          rw [rt_v e f _ hlen1 (digitRun_stop ',' _ (by decide))]
          show Option.map (fun p => (e :: p.1, p.2))
              (parseItems f (joinComma ((x :: xs).map jdumpChars) ++ ']' :: rest))
            = some (e :: x :: xs, rest)
          rw [rt_items x xs f rest hlen2]
          rfl
termination_by e l _ _ _ => sizeOf e + sizeOf l

theorem rt_fields : ∀ (kv : String × JValue Int) (l : List (String × JValue Int))
    (f : Nat) (rest : List Char),
    (joinComma ((kv :: l).map fun q => strChars q.1 ++ ':' :: jdumpChars q.2)).length + 1 < f →
    parseFields f
        (joinComma ((kv :: l).map fun q => strChars q.1 ++ ':' :: jdumpChars q.2)
          ++ '}' :: rest)
      = some (kv :: l, rest)
  | (k, v), [], f, rest, hlen => by
      cases f with
      | zero => omega
      | succ f =>
          have hlen1 : (jdumpChars v).length < f := by
            simp [joinComma, strChars] at hlen
            omega
          have harg : joinComma ([(k, v)].map
                  fun q => strChars q.1 ++ ':' :: jdumpChars q.2) ++ '}' :: rest
              = '"' :: (k.toList.flatMap escChar
                  ++ ('"' :: (':' :: (jdumpChars v ++ ('}' :: rest))))) := by
            simp [joinComma, strChars]
          rw [harg]
          simp only [parseFields]
          try dsimp only
          rw [parseStrBody_strChars]
          have hv := rt_v v f ('}' :: rest) hlen1 (digitRun_stop '}' rest (by decide))
          simp [hv]
  | (k, v), y :: ys, f, rest, hlen => by
      cases f with
      | zero => omega
      | succ f =>
          have hsplit : joinComma (((k, v) :: y :: ys).map
                fun q => strChars q.1 ++ ':' :: jdumpChars q.2)
              = (strChars k ++ ':' :: jdumpChars v)
                ++ ',' :: joinComma ((y :: ys).map
                  fun q => strChars q.1 ++ ':' :: jdumpChars q.2) := by
            simp [joinComma_cons2]
          have hlen1 : (jdumpChars v).length < f := by
            rw [hsplit] at hlen
            simp only [List.length_append, List.length_cons] at hlen
            omega
          have hlen2 : (joinComma ((y :: ys).map
                fun q => strChars q.1 ++ ':' :: jdumpChars q.2)).length + 1 < f := by
            rw [hsplit] at hlen
            simp only [List.length_append, List.length_cons] at hlen
            omega
          have harg : joinComma (((k, v) :: y :: ys).map
                  fun q => strChars q.1 ++ ':' :: jdumpChars q.2) ++ '}' :: rest
              = '"' :: (k.toList.flatMap escChar
                  ++ ('"' :: (':' :: (jdumpChars v
                    ++ (',' :: (joinComma ((y :: ys).map
                      fun q => strChars q.1 ++ ':' :: jdumpChars q.2)
                        ++ '}' :: rest)))))) := by
            rw [hsplit]
            simp [strChars]
          rw [harg]
          simp only [parseFields]
          try dsimp only
          rw [parseStrBody_strChars]
          have hv := rt_v v f (',' :: (joinComma ((y :: ys).map
              fun q => strChars q.1 ++ ':' :: jdumpChars q.2) ++ '}' :: rest)) hlen1
            (digitRun_stop ',' _ (by decide))
          have hrec := rt_fields y ys f rest hlen2
          simp only [List.map_cons] at hv hrec
          simp [hv, hrec]
termination_by kv l _ _ _ => sizeOf kv + sizeOf l

end

theorem jsonLoad_jsonDump (v : JValue Int) : jsonLoad (jsonDump v) = some v := by
  have h := rt_v v ((jdumpChars v).length + 1) [] (Nat.lt_succ_self _) rfl
  rw [List.append_nil] at h
  show (match parseV ((jdumpChars v).length + 1) (jdumpChars v) with
      | some (w, []) => some w
      | _ => none) = some v
  rw [h]

/-- C8: saving a plot's configuration document and re-loading that file in
file-replay mode yields the very same document: `save_configuration` writes
`json.dump` of the created configuration, and a plot constructed from that
path returns `json.load` of the file contents verbatim, which parses the
dump back to a structurally identical tree. -/
theorem C8_save_load_round_trip (env : ExtEnv Int) (fs0 : String → Option String)
    (jl0 : String → Option (JValue Int)) (p : PlotV Int) (path : String)
    (D : JValue Int) (h : plotCreateConfiguration env fs0 jl0 p = .ok D) :
    plotSaveContent env fs0 jl0 jsonDump p = .ok (jsonDump D) ∧
      plotCreateConfiguration env
          (fun q => if q = path then some (jsonDump D) else none) jsonLoad
          (fileReplayPlot path) = .ok D := by
  constructor
  · rw [plotSaveContent, h]
    rfl
  · simp [plotCreateConfiguration, fileReplayPlot, jsonLoad_jsonDump]

/-- Closed instantiation of `C8_save_load_round_trip` on a one-view plot
over `Int`, saved to `plot.json`. -/
theorem C8_witness :
    plotSaveContent intEnv (fun _ => none) (fun _ => none) jsonDump plotSample =
        .ok (jsonDump plotSampleDoc) ∧
      plotCreateConfiguration intEnv
          (fun q => if q = "plot.json" then some (jsonDump plotSampleDoc) else none)
          jsonLoad (fileReplayPlot "plot.json") = .ok plotSampleDoc :=
  C8_save_load_round_trip intEnv (fun _ => none) (fun _ => none) plotSample
    "plot.json" plotSampleDoc rfl

end ElectroLens
